import Mathlib

/-!
Verification development for the M-Hike persistence and import/export layer.

The embedding translates `lib/database.ts` (schema, hike and observation CRUD,
duplicate detection, search) and `lib/storage.ts` (JSON export/import codec)
into executable Lean definitions.  The SQLite store is modelled as lists of
typed rows with autoincrement counters; JavaScript numbers are modelled by the
decimal type `Dec` (every numeric literal that flows through the app is a
decimal), and JavaScript truthiness and `x || null` normalisation are modelled
explicitly.
-/

set_option maxHeartbeats 1000000
set_option maxRecDepth 100000

/-- Decimal number `m * 10 ^ (-e)`: the model of the JavaScript numbers that
flow through the app (form input, JSON literals, SQL REAL/INTEGER values). -/
structure Dec where
  m : Int
  e : Nat
deriving DecidableEq, Repr

/-- Exact numeric equality (the SQL `=` on numbers), by cross multiplication. -/
def Dec.numEq (a b : Dec) : Prop := a.m * 10 ^ b.e = b.m * 10 ^ a.e

instance (a b : Dec) : Decidable (a.numEq b) := inferInstanceAs (Decidable (_ = _))

/-- Numeric `≤` (the SQL `<=`/`>=` on numbers), by cross multiplication. -/
def Dec.numLe (a b : Dec) : Prop := a.m * 10 ^ b.e ≤ b.m * 10 ^ a.e

instance (a b : Dec) : Decidable (a.numLe b) := inferInstanceAs (Decidable (_ ≤ _))

/-- A JavaScript number is falsy exactly when it is zero. -/
def Dec.isZero (d : Dec) : Bool := d.m = 0

/-- The JavaScript `x || null` on an optional string: `undefined` and the
empty string are falsy and become `null` (modelled as `none`). -/
def orNullStr : Option String → Option String
  | some s => if s = "" then none else some s
  | none => none

/-- The JavaScript `x || null` on an optional number: `undefined` and `0` are
falsy and become `null` (modelled as `none`). -/
def orNullNum : Option Dec → Option Dec
  | some d => if d.isZero then none else some d
  | none => none

/-- The `Hike` record of `types/index.ts` (difficulty kept as its string
value, as stored in the TEXT column). -/
structure Hike where
  id : Option Nat
  name : String
  location : String
  date : String
  parkingAvailable : Bool
  lengthKm : Dec
  difficulty : String
  description : Option String
  elevationGainM : Option Dec
  rating : Option Dec
  photoUri : Option String
  latitude : Option Dec
  longitude : Option Dec
  addedToCalendar : Option Bool
deriving DecidableEq, Repr

/-- The `Observation` record of `types/index.ts`. -/
structure Observation where
  id : Option Nat
  hikeId : Nat
  observation : String
  timestamp : Dec
  comments : Option String
  photoUri : Option String
deriving DecidableEq, Repr

/-- One row of the `hikes` table (column values after the bind conversions
performed by `insertHike`; `parkingAvailable`/`addedToCalendar` are the 0/1
INTEGER columns read back through `=== 1`). -/
structure HikeRow where
  id : Nat
  name : String
  location : String
  date : String
  parkingAvailable : Bool
  lengthKm : Dec
  difficulty : String
  description : Option String
  elevationGainM : Option Dec
  rating : Option Dec
  photoUri : Option String
  latitude : Option Dec
  longitude : Option Dec
  addedToCalendar : Bool
deriving DecidableEq, Repr

/-- One row of the `observations` table. -/
structure ObsRow where
  id : Nat
  hikeId : Nat
  observation : String
  timestamp : Dec
  comments : Option String
  photoUri : Option String
deriving DecidableEq, Repr

/-- The SQLite database of `ensureSchema`: the two tables (rows in rowid
order) and the AUTOINCREMENT counters of their INTEGER PRIMARY KEYs. -/
structure Store where
  hikes : List HikeRow
  observations : List ObsRow
  nextHikeId : Nat
  nextObsId : Nat
deriving DecidableEq, Repr

/-- A freshly created database. -/
def emptyStore : Store := ⟨[], [], 1, 1⟩

/-- Reachable-store invariant: AUTOINCREMENT counters exceed every stored id. -/
def StoreWF (st : Store) : Prop :=
  (∀ r ∈ st.hikes, r.id < st.nextHikeId) ∧ (∀ o ∈ st.observations, o.id < st.nextObsId)

instance (st : Store) : Decidable (StoreWF st) := by
  unfold StoreWF; infer_instance

/-- The row-to-record mapping shared by `getAllHikes`, `getHikeById`,
`searchHikes`, `advancedSearchHikes` and `findDuplicateHike`. -/
def rowToHike (r : HikeRow) : Hike :=
  { id := some r.id, name := r.name, location := r.location, date := r.date,
    parkingAvailable := r.parkingAvailable, lengthKm := r.lengthKm,
    difficulty := r.difficulty, description := r.description,
    elevationGainM := r.elevationGainM, rating := r.rating,
    photoUri := r.photoUri, latitude := r.latitude, longitude := r.longitude,
    addedToCalendar := some r.addedToCalendar }

/-- Model of `insertHike`: bind conversions `b ? 1 : 0` and `x || null`, one
new row, returns `lastInsertRowId`. -/
def insertHike (hike : Hike) (st : Store) : Nat × Store :=
  let row : HikeRow :=
    { id := st.nextHikeId, name := hike.name, location := hike.location,
      date := hike.date, parkingAvailable := hike.parkingAvailable,
      lengthKm := hike.lengthKm, difficulty := hike.difficulty,
      description := orNullStr hike.description,
      elevationGainM := orNullNum hike.elevationGainM,
      rating := orNullNum hike.rating, photoUri := orNullStr hike.photoUri,
      latitude := orNullNum hike.latitude, longitude := orNullNum hike.longitude,
      addedToCalendar := hike.addedToCalendar.getD false }
  (st.nextHikeId, { st with hikes := st.hikes ++ [row], nextHikeId := st.nextHikeId + 1 })

/-- The order `ORDER BY date DESC, name ASC` (SQLite BINARY collation on TEXT
is code-point order). -/
def hikeDateNameLe (a b : HikeRow) : Prop :=
  b.date < a.date ∨ (a.date = b.date ∧ a.name ≤ b.name)

instance : DecidableRel hikeDateNameLe := by
  unfold hikeDateNameLe
  infer_instance

instance : IsTotal HikeRow hikeDateNameLe := by
  constructor
  intro a b
  unfold hikeDateNameLe
  rcases lt_trichotomy a.date b.date with hlt | heq | hgt
  · exact Or.inr (Or.inl hlt)
  · rcases le_total a.name b.name with hn | hn
    · exact Or.inl (Or.inr ⟨heq, hn⟩)
    · exact Or.inr (Or.inr ⟨heq.symm, hn⟩)
  · exact Or.inl (Or.inl hgt)

instance : IsTrans HikeRow hikeDateNameLe := by
  constructor
  intro a b c hab hbc
  unfold hikeDateNameLe at hab hbc ⊢
  rcases hab with h1 | ⟨h1, h1n⟩ <;> rcases hbc with h2 | ⟨h2, h2n⟩
  · exact Or.inl (h2.trans h1)
  · exact Or.inl (by rw [← h2]; exact h1)
  · exact Or.inl (by rw [h1]; exact h2)
  · exact Or.inr ⟨h1.trans h2, h1n.trans h2n⟩

/-- The order `ORDER BY name ASC`. -/
def hikeNameLe (a b : HikeRow) : Prop := a.name ≤ b.name

instance : DecidableRel hikeNameLe := by
  unfold hikeNameLe
  infer_instance

instance : IsTotal HikeRow hikeNameLe :=
  ⟨fun a b => le_total a.name b.name⟩

instance : IsTrans HikeRow hikeNameLe :=
  ⟨fun _ _ _ hab hbc => le_trans hab hbc⟩

/-- Model of `getAllHikes`: `SELECT * FROM hikes ORDER BY date DESC, name ASC`. -/
def getAllHikes (st : Store) : List Hike :=
  (List.insertionSort hikeDateNameLe st.hikes).map rowToHike

/-- Model of `getHikeById`: `SELECT * FROM hikes WHERE id = ?`, first row or
null. -/
def getHikeById (id : Nat) (st : Store) : Option Hike :=
  (st.hikes.find? (fun r => decide (r.id = id))).map rowToHike

/-- The per-row effect of the UPDATE statement of `updateHike`: the row with
the matching id has every non-id column rewritten (same bind conversions as
`insertHike`), other rows are untouched. -/
def updRow (hike : Hike) (i : Nat) (r : HikeRow) : HikeRow :=
  if r.id = i then
    { id := r.id, name := hike.name, location := hike.location,
      date := hike.date, parkingAvailable := hike.parkingAvailable,
      lengthKm := hike.lengthKm, difficulty := hike.difficulty,
      description := orNullStr hike.description,
      elevationGainM := orNullNum hike.elevationGainM,
      rating := orNullNum hike.rating, photoUri := orNullStr hike.photoUri,
      latitude := orNullNum hike.latitude,
      longitude := orNullNum hike.longitude,
      addedToCalendar := hike.addedToCalendar.getD false }
  else r

/-- Model of `updateHike`: throws when `!hike.id` (absent or 0), otherwise
rewrites every non-id column of the matching row. -/
def updateHike (hike : Hike) (st : Store) : Except String Store :=
  match hike.id with
  | none => .error ("Hike ID is required for update")
  | some i =>
    if i = 0 then .error ("Hike ID is required for update")
    else .ok { st with hikes := st.hikes.map (updRow hike i) }

/-- Model of `deleteHike`: `DELETE FROM hikes WHERE id = ?`; the schema's
`ON DELETE CASCADE` on `observations.hikeId` removes the dependent
observation rows of each actually deleted hike row (no application-level
delete on `observations` is issued). -/
def deleteHike (id : Nat) (st : Store) : Store :=
  { st with
    hikes := st.hikes.filter (fun r => ¬ r.id = id),
    observations :=
      if st.hikes.any (fun r => decide (r.id = id)) then
        st.observations.filter (fun o => ¬ o.hikeId = id)
      else st.observations }

/-- Model of `deleteAllHikes`: clears both tables. -/
def deleteAllHikes (st : Store) : Store :=
  { st with hikes := [], observations := [] }

/-- ASCII case folding: SQLite `LIKE` is case-insensitive for A–Z only. -/
def asciiFold (c : Char) : Char :=
  if 'A' ≤ c ∧ c ≤ 'Z' then Char.ofNat (c.toNat + 32) else c

/-- SQLite `LIKE` pattern matching: `%` matches any sequence, `_` any single
character, other characters match ASCII-case-insensitively. -/
def likeMatch : List Char → List Char → Bool
  | [], [] => true
  | [], _ :: _ => false
  | '%' :: p, s =>
    likeMatch p s ||
      (match s with
       | [] => false
       | _ :: s' => likeMatch ('%' :: p) s')
  | '_' :: p, s =>
    (match s with
     | [] => false
     | _ :: s' => likeMatch p s')
  | _ :: _, [] => false
  | c :: p, d :: s => (asciiFold c = asciiFold d) && likeMatch p s
termination_by p s => (s.length, p.length)

/-- Model of `searchHikes`: `WHERE name LIKE '%'||?||'%' ORDER BY name ASC`. -/
def searchHikes (query : String) (st : Store) : List Hike :=
  (List.insertionSort hikeNameLe
    (st.hikes.filter (fun r => likeMatch ('%' :: query.data ++ ['%']) r.name.data))).map
    rowToHike

/-- A criterion the query builder appends only when the value is not
`undefined` (`minLen !== undefined`-style checks). -/
def optCrit {α : Type} (o : Option α) (f : α → Bool) : Bool :=
  match o with
  | some x => f x
  | none => true

/-- A string criterion the query builder appends only when truthy: the empty
string is falsy and skipped like `undefined` (`if (name)`-style checks). -/
def optCritStr (o : Option String) (f : String → Bool) : Bool :=
  match o with
  | some s => if s = "" then true else f s
  | none => true

/-- The dynamically built `WHERE` clause of `advancedSearchHikes`: a string
criterion is only appended when truthy (`undefined` and `''` are skipped),
numeric and boolean criteria only when not `undefined`. -/
def advMatches (name location : Option String) (minLen maxLen : Option Dec)
    (date difficulty : Option String) (parking : Option Bool) (r : HikeRow) : Bool :=
  optCritStr name (fun n => likeMatch ('%' :: n.data ++ ['%']) r.name.data) &&
  optCritStr location (fun l => likeMatch ('%' :: l.data ++ ['%']) r.location.data) &&
  optCrit minLen (fun d => decide (d.numLe r.lengthKm)) &&
  optCrit maxLen (fun d => decide (r.lengthKm.numLe d)) &&
  optCritStr date (fun s => decide (r.date = s)) &&
  optCritStr difficulty (fun s => decide (r.difficulty = s)) &&
  optCrit parking (fun b => r.parkingAvailable == b)

/-- Model of `advancedSearchHikes`: conjunctive filters,
`ORDER BY date DESC, name ASC`. -/
def advancedSearchHikes (name location : Option String) (minLen maxLen : Option Dec)
    (date difficulty : Option String) (parking : Option Bool) (st : Store) : List Hike :=
  (List.insertionSort hikeDateNameLe
    (st.hikes.filter
      (advMatches name location minLen maxLen date difficulty parking))).map rowToHike

/-- Model of `findDuplicateHike`: `WHERE` on the six natural-key columns
(exact TEXT equality, exact numeric equality, 0/1 on parking), `LIMIT 1`. -/
def findDuplicateHike (hike : Hike) (st : Store) : Option Hike :=
  (st.hikes.find? (fun r =>
      decide (r.name = hike.name) && decide (r.location = hike.location) &&
      decide (r.date = hike.date) && decide (r.lengthKm.numEq hike.lengthKm) &&
      decide (r.difficulty = hike.difficulty) &&
      (r.parkingAvailable == hike.parkingAvailable))).map rowToHike

/-- Model of `insertObservation`: bind conversions `x || null`, one new row,
returns `lastInsertRowId`. -/
def insertObservation (o : Observation) (st : Store) : Nat × Store :=
  let row : ObsRow :=
    { id := st.nextObsId, hikeId := o.hikeId, observation := o.observation,
      timestamp := o.timestamp, comments := orNullStr o.comments,
      photoUri := orNullStr o.photoUri }
  (st.nextObsId, { st with observations := st.observations ++ [row],
                           nextObsId := st.nextObsId + 1 })

/-- The order `ORDER BY timestamp DESC`. -/
def obsTimestampDescLe (a b : ObsRow) : Prop := b.timestamp.numLe a.timestamp

instance : DecidableRel obsTimestampDescLe := by
  unfold obsTimestampDescLe
  infer_instance

instance : IsTotal ObsRow obsTimestampDescLe := by
  constructor
  intro a b
  unfold obsTimestampDescLe Dec.numLe
  exact le_total _ _

instance : IsTrans ObsRow obsTimestampDescLe := by
  constructor
  intro a b c hab hbc
  unfold obsTimestampDescLe Dec.numLe at hab hbc ⊢
  have h10 : ∀ k : Nat, (0 : Int) < 10 ^ k := fun k => pow_pos (by norm_num) k
  refine le_of_mul_le_mul_right ?_ (h10 b.timestamp.e)
  calc c.timestamp.m * 10 ^ a.timestamp.e * 10 ^ b.timestamp.e
      = c.timestamp.m * 10 ^ b.timestamp.e * 10 ^ a.timestamp.e := by ring
    _ ≤ b.timestamp.m * 10 ^ c.timestamp.e * 10 ^ a.timestamp.e :=
        mul_le_mul_of_nonneg_right hbc (le_of_lt (h10 a.timestamp.e))
    _ = b.timestamp.m * 10 ^ a.timestamp.e * 10 ^ c.timestamp.e := by ring
    _ ≤ a.timestamp.m * 10 ^ b.timestamp.e * 10 ^ c.timestamp.e :=
        mul_le_mul_of_nonneg_right hab (le_of_lt (h10 c.timestamp.e))
    _ = a.timestamp.m * 10 ^ c.timestamp.e * 10 ^ b.timestamp.e := by ring

/-- The row-to-record mapping of the observation reads. -/
def rowToObs (r : ObsRow) : Observation :=
  { id := some r.id, hikeId := r.hikeId, observation := r.observation,
    timestamp := r.timestamp, comments := r.comments, photoUri := r.photoUri }

/-- Model of `getObservationsByHikeId`: `WHERE hikeId = ? ORDER BY timestamp
DESC`. -/
def getObservationsByHikeId (hikeId : Nat) (st : Store) : List Observation :=
  (List.insertionSort obsTimestampDescLe
    (st.observations.filter (fun o => decide (o.hikeId = hikeId)))).map rowToObs

/-- Model of `getObservationById`: `SELECT * FROM observations WHERE id = ?`. -/
def getObservationById (id : Nat) (st : Store) : Option Observation :=
  (st.observations.find? (fun o => decide (o.id = id))).map rowToObs

/-- Model of `updateObservation`: throws when `!observation.id`; the `SET` clause
rewrites only `observation`, `timestamp`, `comments`, `photoUri` — never
`hikeId` or `id`. -/
def updateObservation (o : Observation) (st : Store) : Except String Store :=
  match o.id with
  | none => .error ("Observation ID is required for update")
  | some i =>
    if i = 0 then .error ("Observation ID is required for update")
    else .ok { st with observations := st.observations.map (fun r =>
      if r.id = i then
        { r with observation := o.observation, timestamp := o.timestamp,
                 comments := orNullStr o.comments, photoUri := orNullStr o.photoUri }
      else r) }

/-- Model of `deleteObservation`: `DELETE FROM observations WHERE id = ?`. -/
def deleteObservation (id : Nat) (st : Store) : Store :=
  { st with observations := st.observations.filter (fun o => ¬ o.id = id) }

/-- The natural key of §3 of the spec, compared exactly as the SQL `WHERE`
clause of `findDuplicateHike` compares the six columns. -/
def natKeyEq (a b : Hike) : Prop :=
  a.name = b.name ∧ a.location = b.location ∧ a.date = b.date ∧
  a.lengthKm.numEq b.lengthKm ∧ a.difficulty = b.difficulty ∧
  a.parkingAvailable = b.parkingAvailable

instance (a b : Hike) : Decidable (natKeyEq a b) := by
  unfold natKeyEq; infer_instance

/-- The decimal digit character for a value below ten. -/
def digitChar (n : Nat) : Char := Char.ofNat (48 + min n 9)

/-- Fuel-indexed digit expansion (structural, so the kernel can evaluate it). -/
def natDigitsF : Nat → Nat → List Char
  | 0, _ => []
  | fuel + 1, n =>
    if n < 10 then [digitChar n]
    else natDigitsF fuel (n / 10) ++ [digitChar (n % 10)]

/-- Decimal digits of a natural number, most significant first. -/
def natDigits (n : Nat) : List Char := natDigitsF (n + 1) n

/-- Digit string of the magnitude of a `Dec`, zero-padded so that at least
`e + 1` digits are available. -/
def decPadded (d : Dec) : List Char :=
  let ds := natDigits d.m.natAbs
  if ds.length < d.e + 1 then List.replicate (d.e + 1 - ds.length) '0' ++ ds else ds

/-- Unsigned decimal rendering of a `Dec`: the padded digits with a point
inserted `e` places from the right (no point when `e = 0`). -/
def decBody (d : Dec) : List Char :=
  if d.e = 0 then decPadded d
  else (decPadded d).take ((decPadded d).length - d.e) ++
    '.' :: (decPadded d).drop ((decPadded d).length - d.e)

/-- Decimal rendering of a `Dec`, with exactly `e` digits after the point
(how the model serialises the numbers it itself produced). -/
def decRender (d : Dec) : List Char :=
  if d.m < 0 then '-' :: decBody d else decBody d

/-- Lower-case hexadecimal digit character, as emitted by `JSON.stringify`. -/
def hexDigitChar (n : Nat) : Char :=
  if n < 10 then Char.ofNat (48 + n) else Char.ofNat (87 + n)

/-- Value of a hexadecimal digit character. -/
def hexVal (c : Char) : Option Nat :=
  if ('0' ≤ c ∧ c ≤ '9') then some (c.toNat - 48)
  else if ('a' ≤ c ∧ c ≤ 'f') then some (c.toNat - 87)
  else if ('A' ≤ c ∧ c ≤ 'F') then some (c.toNat - 55)
  else none

/-- String-character escaping of `JSON.stringify`: quote, backslash, the five
short control escapes, `\u00XX` for the remaining control characters. -/
def escChar (c : Char) : List Char :=
  if c = '"' then ['\\', '"']
  else if c = '\\' then ['\\', '\\']
  else if c = '\n' then ['\\', 'n']
  else if c = '\t' then ['\\', 't']
  else if c = '\r' then ['\\', 'r']
  else if c = '\x08' then ['\\', 'b']
  else if c = '\x0c' then ['\\', 'f']
  else if c.toNat < 32 then
    ['\\', 'u', '0', '0', hexDigitChar (c.toNat / 16), hexDigitChar (c.toNat % 16)]
  else [c]

/-- Escaped content of a JSON string literal. -/
def escContent (s : List Char) : List Char := s.foldr (fun c acc => escChar c ++ acc) []

/-- A complete JSON string literal. -/
def escString (s : String) : List Char := '"' :: escContent s.data ++ ['"']

mutual
/-- JSON values (numbers as `Dec`), the result type of the modelled
`JSON.parse` and argument type of the modelled `JSON.stringify`. -/
inductive Json : Type where
  | null : Json
  | bool : Bool → Json
  | num : Dec → Json
  | str : String → Json
  | arr : JArr → Json
  | obj : JObj → Json
/-- A JSON array, as its own inductive to ease mutual recursion. -/
inductive JArr : Type where
  | nil : JArr
  | cons : Json → JArr → JArr
/-- A JSON object: an ordered list of key-value members. -/
inductive JObj : Type where
  | nil : JObj
  | cons : String → Json → JObj → JObj
end

/-- Indentation emitted by `JSON.stringify(v, null, 2)`. -/
def spacesN (n : Nat) : List Char := List.replicate n ' '

mutual
/-- Model of `JSON.stringify(v, null, 2)` at nesting level `ind`. -/
def renderV (ind : Nat) (v : Json) : List Char :=
  match v with
  | .null => 'n' :: ['u', 'l', 'l']
  | .bool true => 't' :: ['r', 'u', 'e']
  | .bool false => 'f' :: ['a', 'l', 's', 'e']
  | .num d => decRender d
  | .str s => escString s
  | .arr .nil => ['[', ']']
  | .arr (.cons h t) =>
    '[' :: '\n' :: spacesN (2 * (ind + 1)) ++ renderV (ind + 1) h ++
      renderItemsTail (ind + 1) t ++ '\n' :: spacesN (2 * ind) ++ [']']
  | .obj .nil => ['\x7b', '\x7d']
  | .obj (.cons k v2 t) =>
    '\x7b' :: '\n' :: spacesN (2 * (ind + 1)) ++ escString k ++ ':' :: ' ' ::
      renderV (ind + 1) v2 ++ renderMembersTail (ind + 1) t ++
      '\n' :: spacesN (2 * ind) ++ ['\x7d']
/-- Pretty-printed items after the first, each preceded by a comma, a newline
and the indentation. -/
def renderItemsTail (ind : Nat) (t : JArr) : List Char :=
  match t with
  | .nil => []
  | .cons h t2 =>
    ',' :: '\n' :: spacesN (2 * ind) ++ renderV ind h ++ renderItemsTail ind t2
/-- Pretty-printed members after the first, each preceded by a comma, a
newline and the indentation. -/
def renderMembersTail (ind : Nat) (t : JObj) : List Char :=
  match t with
  | .nil => []
  | .cons k v t2 =>
    ',' :: '\n' :: spacesN (2 * ind) ++ escString k ++ ':' :: ' ' ::
      renderV ind v ++ renderMembersTail ind t2
end

/-- Top-level rendering of a JSON value. -/
def renderJson (v : Json) : List Char := renderV 0 v

/-- JSON whitespace. -/
def isWs (c : Char) : Bool := c = ' ' || c = '\n' || c = '\t' || c = '\r'

/-- Skip leading JSON whitespace. -/
def skipWs : List Char → List Char
  | [] => []
  | c :: r => if isWs c then skipWs r else c :: r

/-- ASCII digit test. -/
def isDigitCh (c : Char) : Bool := '0' ≤ c && c ≤ '9'

/-- Value of an ASCII digit character. -/
def digitVal (c : Char) : Nat := c.toNat - 48

/-- Longest digit prefix and the rest. -/
def takeDigits : List Char → List Char × List Char
  | [] => ([], [])
  | c :: r =>
    if isDigitCh c then
      let p := takeDigits r
      (c :: p.1, p.2)
    else ([], c :: r)

/-- Numeric value of a digit list, most significant first. -/
def digitsVal (l : List Char) : Nat := l.foldl (fun a c => a * 10 + digitVal c) 0

/-- JSON string-literal body parser (after the opening quote), inverting
`escContent`. -/
def parseStr : List Char → Option (List Char × List Char)
  | [] => none
  | '"' :: r => some ([], r)
  | '\\' :: '"' :: r => (parseStr r).map (fun p => ('"' :: p.1, p.2))
  | '\\' :: '\\' :: r => (parseStr r).map (fun p => ('\\' :: p.1, p.2))
  | '\\' :: '/' :: r => (parseStr r).map (fun p => ('/' :: p.1, p.2))
  | '\\' :: 'n' :: r => (parseStr r).map (fun p => ('\n' :: p.1, p.2))
  | '\\' :: 't' :: r => (parseStr r).map (fun p => ('\t' :: p.1, p.2))
  | '\\' :: 'r' :: r => (parseStr r).map (fun p => ('\r' :: p.1, p.2))
  | '\\' :: 'b' :: r => (parseStr r).map (fun p => ('\x08' :: p.1, p.2))
  | '\\' :: 'f' :: r => (parseStr r).map (fun p => ('\x0c' :: p.1, p.2))
  | '\\' :: 'u' :: h1 :: h2 :: h3 :: h4 :: r =>
    match hexVal h1, hexVal h2, hexVal h3, hexVal h4 with
    | some a, some b, some c, some d =>
      (parseStr r).map (fun p => (Char.ofNat (((a * 16 + b) * 16 + c) * 16 + d) :: p.1, p.2))
    | _, _, _, _ => none
  | '\\' :: _ => none
  | c :: r => (parseStr r).map (fun p => (c :: p.1, p.2))

/-- Attach the JavaScript sign to a parsed magnitude. -/
def applySign (neg : Bool) (n : Nat) : Int := if neg then -(n : Int) else (n : Int)

/-- Fold a parsed decimal exponent into a `Dec` mantissa/scale pair. -/
def applyExp (m : Int) (e : Nat) (expNeg : Bool) (ex : Nat) : Dec :=
  if expNeg then ⟨m, e + ex⟩
  else if e ≤ ex then ⟨m * (10 : Int) ^ (ex - e), 0⟩ else ⟨m, e - ex⟩

/-- Optional exponent part of a JSON number. -/
def parseExpPart (m : Int) (e : Nat) (l : List Char) : Option (Dec × List Char) :=
  match l with
  | 'e' :: r =>
    match r with
    | '+' :: r2 =>
      let p := takeDigits r2
      if p.1 = [] then none else some (applyExp m e false (digitsVal p.1), p.2)
    | '-' :: r2 =>
      let p := takeDigits r2
      if p.1 = [] then none else some (applyExp m e true (digitsVal p.1), p.2)
    | _ =>
      let p := takeDigits r
      if p.1 = [] then none else some (applyExp m e false (digitsVal p.1), p.2)
  | 'E' :: r =>
    match r with
    | '+' :: r2 =>
      let p := takeDigits r2
      if p.1 = [] then none else some (applyExp m e false (digitsVal p.1), p.2)
    | '-' :: r2 =>
      let p := takeDigits r2
      if p.1 = [] then none else some (applyExp m e true (digitsVal p.1), p.2)
    | _ =>
      let p := takeDigits r
      if p.1 = [] then none else some (applyExp m e false (digitsVal p.1), p.2)
  | _ => some (⟨m, e⟩, l)

/-- Unsigned part of a JSON number: digits, optional fraction, optional
exponent, with the already-consumed sign supplied. -/
def parseNumMag (neg : Bool) (l : List Char) : Option (Dec × List Char) :=
  let ip := takeDigits l
  if ip.1 = [] then none
  else
    match ip.2 with
    | '.' :: r2 =>
      let fp := takeDigits r2
      if fp.1 = [] then none
      else parseExpPart (applySign neg (digitsVal (ip.1 ++ fp.1))) fp.1.length fp.2
    | _ => parseExpPart (applySign neg (digitsVal ip.1)) 0 ip.2

/-- JSON number parser: optional sign, digits, optional fraction, optional
exponent. -/
def parseNumCore : List Char → Option (Dec × List Char)
  | '-' :: l => parseNumMag true l
  | l => parseNumMag false l

mutual
/-- Fuel-indexed JSON value parser (model of `JSON.parse`). -/
def pVal : Nat → List Char → Option (Json × List Char)
  | 0, _ => none
  | fuel + 1, l =>
    match skipWs l with
    | 'n' :: 'u' :: 'l' :: 'l' :: r => some (.null, r)
    | 't' :: 'r' :: 'u' :: 'e' :: r => some (.bool true, r)
    | 'f' :: 'a' :: 'l' :: 's' :: 'e' :: r => some (.bool false, r)
    | '"' :: r => (parseStr r).map (fun p => (.str (String.mk p.1), p.2))
    | '\x7b' :: r =>
      match skipWs r with
      | '\x7d' :: r2 => some (.obj .nil, r2)
      | r2 => (pMembers fuel r2).map (fun p => (.obj p.1, p.2))
    | '[' :: r =>
      match skipWs r with
      | ']' :: r2 => some (.arr .nil, r2)
      | r2 => (pItems fuel r2).map (fun p => (.arr p.1, p.2))
    | l2 => (parseNumCore l2).map (fun p => (.num p.1, p.2))
/-- Fuel-indexed parser of the items of a non-empty JSON array. -/
def pItems : Nat → List Char → Option (JArr × List Char)
  | 0, _ => none
  | fuel + 1, l =>
    match pVal fuel l with
    | none => none
    | some (v, r) =>
      match skipWs r with
      | ',' :: r2 => (pItems fuel r2).map (fun p => (.cons v p.1, p.2))
      | ']' :: r2 => some (.cons v .nil, r2)
      | _ => none
/-- Fuel-indexed parser of the members of a non-empty JSON object. -/
def pMembers : Nat → List Char → Option (JObj × List Char)
  | 0, _ => none
  | fuel + 1, l =>
    match skipWs l with
    | '"' :: r =>
      match parseStr r with
      | none => none
      | some (k, r1) =>
        match skipWs r1 with
        | ':' :: r2 =>
          match pVal fuel r2 with
          | none => none
          | some (v, r3) =>
            match skipWs r3 with
            | ',' :: r4 => (pMembers fuel r4).map (fun p => (.cons (String.mk k) v p.1, p.2))
            | '\x7d' :: r4 => some (.cons (String.mk k) v .nil, r4)
            | _ => none
        | _ => none
    | _ => none
end

/-- Model of `JSON.parse`: parse one value, allow trailing whitespace only. -/
def jsonParse (l : List Char) : Option Json :=
  match pVal (2 * l.length + 2) l with
  | some (v, r) => if skipWs r = [] then some v else none
  | none => none

/-- The `ObservationExportFormat` record of `types/index.ts`. -/
structure ObsExport where
  observation : String
  timestamp : Dec
  comments : Option String
deriving DecidableEq, Repr

/-- The `HikeExportFormat` record of `types/index.ts`. -/
structure HikeExportFormat where
  name : String
  location : String
  date : String
  parkingAvailable : Bool
  lengthKm : Dec
  difficulty : String
  description : Option String
  elevationGainM : Option Dec
  rating : Option Dec
  latitude : Option Dec
  longitude : Option Dec
  observations : Option (List ObsExport)
deriving DecidableEq, Repr

/-- Build a JSON object from an association list, in insertion order. -/
def jObjOf : List (String × Json) → JObj
  | [] => .nil
  | p :: t => .cons p.1 p.2 (jObjOf t)

/-- Build a JSON array from a list. -/
def jArrOf : List Json → JArr
  | [] => .nil
  | v :: t => .cons v (jArrOf t)

/-- An optional object member: `JSON.stringify` skips `undefined` values. -/
def optField (k : String) : Option Json → List (String × Json)
  | some v => [(k, v)]
  | none => []

/-- JSON shape of one exported observation (`observation`, `timestamp`,
optional `comments`), as built by `exportHikeToJson`. -/
def obsExportJson (o : ObsExport) : Json :=
  .obj (jObjOf ([("observation", .str o.observation), ("timestamp", .num o.timestamp)] ++
    optField ("comments") (o.comments.map .str)))

/-- JSON shape of the `exportData` object literal of `exportHikeToJson`, keys
in insertion order, `undefined` members dropped. -/
def exportFormatJson (e : HikeExportFormat) : Json :=
  .obj (jObjOf
    ([("name", .str e.name), ("location", .str e.location), ("date", .str e.date),
      ("parkingAvailable", .bool e.parkingAvailable), ("lengthKm", .num e.lengthKm),
      ("difficulty", .str e.difficulty)] ++
     optField ("description") (e.description.map .str) ++
     optField ("elevationGainM") (e.elevationGainM.map .num) ++
     optField ("rating") (e.rating.map .num) ++
     optField ("latitude") (e.latitude.map .num) ++
     optField ("longitude") (e.longitude.map .num) ++
     optField ("observations")
       (e.observations.map (fun l => .arr (jArrOf (l.map obsExportJson))))))

/-- The `exportData` record built by `exportHikeToJson` from the hike and its
observations (photoUri and addedToCalendar are not copied). -/
def hikeToExportFormat (hike : Hike) (obs : List Observation) : HikeExportFormat :=
  { name := hike.name, location := hike.location, date := hike.date,
    parkingAvailable := hike.parkingAvailable, lengthKm := hike.lengthKm,
    difficulty := hike.difficulty, description := hike.description,
    elevationGainM := hike.elevationGainM, rating := hike.rating,
    latitude := hike.latitude, longitude := hike.longitude,
    observations := some (obs.map (fun o => ⟨o.observation, o.timestamp, o.comments⟩)) }

/-- The human-readable header of the export text (the template literal of
`exportHikeToJson`, conditional lines for truthy optional fields), up to and
including the line before the JSON payload. -/
def headerChars (hike : Hike) (obsCount : Nat) : List Char :=
  ("=== Hike Export ===\nName: ").data ++ hike.name.data ++
  ("\nLocation: ").data ++ hike.location.data ++
  ("\nDate: ").data ++ hike.date.data ++
  ("\nLength: ").data ++ decRender hike.lengthKm ++
  (" km\nDifficulty: ").data ++ hike.difficulty.data ++
  ("\nParking: ").data ++
  (if hike.parkingAvailable then ("Available").data else ("Unavailable").data) ++
  ("\n").data ++
  (match hike.elevationGainM with
   | some d => if d.isZero then [] else ("Elevation Gain: ").data ++ decRender d ++ (" m\n").data
   | none => []) ++
  (match hike.rating with
   | some d => if d.isZero then [] else ("Rating: ").data ++ decRender d ++ ("/5\n").data
   | none => []) ++
  (match hike.description with
   | some s => if s = "" then [] else ("Description: ").data ++ s.data ++ ("\n").data
   | none => []) ++
  ("\n").data ++
  (if 0 < obsCount then ("Observations: ").data ++ natDigits obsCount ++ ("\n").data else []) ++
  ("\n=== JSON Data (for import) ===\n").data

/-- Model of `exportHikeToJson`: the hike's observations are fetched, the
export record is built, and the readable header is concatenated with
`JSON.stringify(exportData, null, 2)`. -/
def exportHikeToJson (hike : Hike) (st : Store) : String :=
  let observations := getObservationsByHikeId (hike.id.getD 0) st
  String.mk (headerChars hike observations.length ++
    renderJson (exportFormatJson (hikeToExportFormat hike observations)))

/-- Model of `jsonText.match(/\x7b[\s\S]*\x7d/)`: the leftmost greedy match
runs from the first opening brace to the last closing brace at or after it;
when there is no match the original text is used unchanged. -/
def extractJsonBlock (l : List Char) : List Char :=
  let fromBrace := l.dropWhile (fun c => ¬ c = '\x7b')
  let upToLast := (fromBrace.reverse.dropWhile (fun c => ¬ c = '\x7d')).reverse
  if fromBrace = [] then l
  else if upToLast = [] then l
  else upToLast

/-- The fixed validation failure message of `parseImportJson` (always lists
all six required field names). -/
def msgMissingFields : String :=
  "Missing required fields: name, location, date, parkingAvailable, lengthKm, or difficulty"

/-- The message thrown when `JSON.parse` raises a `SyntaxError`. -/
def msgInvalidJson : String :=
  "Invalid JSON file format. Please select a valid hike export file."

/-- The fallback message (reached when reading a property of parsed `null`
throws a `TypeError`). -/
def msgInvalidData : String :=
  "Invalid hike data format. Please check the file content."

/-- Last-wins member lookup: `JSON.parse` keeps the last duplicate key. -/
def jLookup : JObj → String → Option Json
  | .nil, _ => none
  | .cons k v t, key =>
    match jLookup t key with
    | some r => some r
    | none => if k = key then some v else none

/-- JavaScript property access `data[k]` on a parsed JSON value: `undefined`
(here `none`) on non-objects. -/
def jGet (j : Json) (k : String) : Option Json :=
  match j with
  | .obj o => jLookup o k
  | _ => none

/-- JavaScript truthiness of an optional JSON value. -/
def jsTruthy : Option Json → Bool
  | none => false
  | some .null => false
  | some (.bool b) => b
  | some (.num d) => !d.isZero
  | some (.str s) => !(s = ("") : Bool)
  | some (.arr _) => true
  | some (.obj _) => true

/-- Null test (reading a property of `null` throws a `TypeError`). -/
def isNullJson : Json → Bool
  | .null => true
  | _ => false

/-- Model of `parseImportJson`: extract the brace block, `JSON.parse` it,
then check the six required fields for truthiness (`parkingAvailable` only
against `undefined`).  The three catch branches map to the three fixed
messages. -/
def parseImportJson (jsonText : String) : Except String Json :=
  match jsonParse (extractJsonBlock jsonText.data) with
  | none => .error msgInvalidJson
  | some data =>
    if isNullJson data then .error msgInvalidData
    else if !jsTruthy (jGet data ("name")) || !jsTruthy (jGet data ("location")) ||
        !jsTruthy (jGet data ("date")) || (jGet data ("parkingAvailable")).isNone ||
        !jsTruthy (jGet data ("lengthKm")) || !jsTruthy (jGet data ("difficulty")) then
      .error msgMissingFields
    else .ok data

/-- Reading a string field of the unchecked `data as HikeExportFormat` cast.
The cast performs no runtime check; an ill-typed present value is read with a
default here (no claim depends on the stored content of ill-typed imports). -/
def jStrD (x : Option Json) : String :=
  match x with
  | some (.str s) => s
  | _ => ""

/-- Reading a numeric field of the unchecked cast, with a default. -/
def jNumD (x : Option Json) : Dec :=
  match x with
  | some (.num d) => d
  | _ => ⟨0, 0⟩

/-- Reading an optional string field of the unchecked cast. -/
def jStrOpt (x : Option Json) : Option String :=
  match x with
  | some (.str s) => some s
  | _ => none

/-- Reading an optional numeric field of the unchecked cast. -/
def jNumOpt (x : Option Json) : Option Dec :=
  match x with
  | some (.num d) => some d
  | _ => none

/-- List of the elements of a JSON array. -/
def jArrToList : JArr → List Json
  | .nil => []
  | .cons v t => v :: jArrToList t

/-- One element of the `observations` array, read through the unchecked cast. -/
def jObsExport (j : Json) : ObsExport :=
  { observation := jStrD (jGet j ("observation")),
    timestamp := jNumD (jGet j ("timestamp")),
    comments := jStrOpt (jGet j ("comments")) }

/-- The optional `observations` array, read through the unchecked cast. -/
def jObsListOpt (x : Option Json) : Option (List ObsExport) :=
  match x with
  | some (.arr a) => some ((jArrToList a).map jObsExport)
  | _ => none

/-- The decoded `HikeExportFormat` as consumed by `importHikeFromJson`
(`parkingAvailable` is read by truthiness because both of its uses downstream
are the bind conversion `b ? 1 : 0`). -/
def jsonToExportFormat (j : Json) : HikeExportFormat :=
  { name := jStrD (jGet j ("name")), location := jStrD (jGet j ("location")),
    date := jStrD (jGet j ("date")),
    parkingAvailable := jsTruthy (jGet j ("parkingAvailable")),
    lengthKm := jNumD (jGet j ("lengthKm")), difficulty := jStrD (jGet j ("difficulty")),
    description := jStrOpt (jGet j ("description")),
    elevationGainM := jNumOpt (jGet j ("elevationGainM")),
    rating := jNumOpt (jGet j ("rating")), latitude := jNumOpt (jGet j ("latitude")),
    longitude := jNumOpt (jGet j ("longitude")),
    observations := jObsListOpt (jGet j ("observations")) }

/-- The result shape of `importHikeFromJson`. -/
structure ImportResult where
  success : Bool
  message : String
  hikeId : Option Nat
deriving DecidableEq, Repr

/-- Fault-injected database call: models that an individual awaited SQLite
statement may reject; `fault n` is the rejection message of the `n`-th
database call of the import flow, when that call fails. -/
def dbCall {α : Type} (fault : Nat → Option String) (op : Store → α × Store)
    (sn : Store × Nat) : Except String α × Store × Nat :=
  match fault sn.2 with
  | some e => (.error e, sn.1, sn.2 + 1)
  | none =>
    let p := op sn.1
    (.ok p.1, p.2, sn.2 + 1)

/-- The hike object literal built from the decoded import data (passed to
`findDuplicateHike` without `addedToCalendar`, to `insertHike` with
`addedToCalendar: false`; `photoUri` is absent in both). -/
def importCandidate (e : HikeExportFormat) (cal : Option Bool) : Hike :=
  { id := none, name := e.name, location := e.location, date := e.date,
    parkingAvailable := e.parkingAvailable, lengthKm := e.lengthKm,
    difficulty := e.difficulty, description := e.description,
    elevationGainM := e.elevationGainM, rating := e.rating, photoUri := none,
    latitude := e.latitude, longitude := e.longitude, addedToCalendar := cal }

/-- The sequential `for … of` loop inserting the embedded observations; a
rejection aborts the loop with the partial state kept (no transaction). -/
def insertObsLoop (fault : Nat → Option String) (hikeId : Nat) :
    List ObsExport → Store × Nat → Except String Unit × Store × Nat
  | [], sn => (.ok (), sn)
  | o :: rest, sn =>
    match dbCall fault (insertObservation
        { id := none, hikeId := hikeId, observation := o.observation,
          timestamp := o.timestamp, comments := o.comments, photoUri := none }) sn with
    | (.error e, st, n) => (.error e, st, n)
    | (.ok _, st, n) => insertObsLoop fault hikeId rest (st, n)

/-- The success message of `importHikeFromJson` (the observation-count suffix
is appended only when `importData.observations?.length` is truthy). -/
def importSuccessMessage (e : HikeExportFormat) : String :=
  "Hike \"" ++ e.name ++ "\" imported successfully" ++
    (match e.observations with
     | some l => if l.length = 0 then "" else " with " ++ String.mk (natDigits l.length) ++ " observation(s)"
     | none => "")

/-- The body of the `try` block of `importHikeFromJson`: decode, duplicate
check, hike insert, observation inserts; every database failure propagates
as an exception (`.error`) together with the state reached so far. -/
def importAttempt (fault : Nat → Option String) (jsonText : String)
    (sn : Store × Nat) : Except String ImportResult × Store × Nat :=
  match parseImportJson jsonText with
  | .error e => (.error e, sn.1, sn.2)
  | .ok data =>
    let importData := jsonToExportFormat data
    match dbCall fault (fun st => (findDuplicateHike (importCandidate importData none) st, st)) sn with
    | (.error e, st, n) => (.error e, st, n)
    | (.ok dup, st1, n1) =>
      match dup with
      | some _ =>
        (.ok { success := false, message := "Import failed! You already have this hike",
               hikeId := none }, st1, n1)
      | none =>
        match dbCall fault (insertHike (importCandidate importData (some false))) (st1, n1) with
        | (.error e, st, n) => (.error e, st, n)
        | (.ok hikeId, st2, n2) =>
          match insertObsLoop fault hikeId (importData.observations.getD []) (st2, n2) with
          | (.error e, st, n) => (.error e, st, n)
          | (.ok _, st3, n3) =>
            (.ok { success := true, message := importSuccessMessage importData,
                   hikeId := some hikeId }, st3, n3)

/-- Model of `importHikeFromJson`: the surrounding `try`/`catch` converts any
exception of the attempt into `{success: false, message}`. -/
def importHikeFromJson (fault : Nat → Option String) (jsonText : String)
    (sn : Store × Nat) : ImportResult × Store × Nat :=
  match importAttempt fault jsonText sn with
  | (.ok r, st, n) => (r, st, n)
  | (.error e, st, n) => ({ success := false, message := e, hikeId := none }, st, n)

mutual
/-- Fuel needed by `pVal` to parse a rendered value. -/
def nfV (v : Json) : Nat :=
  match v with
  | .null => 1
  | .bool _ => 1
  | .num _ => 1
  | .str _ => 1
  | .arr .nil => 1
  | .arr (.cons h t) => 1 + nfI h t
  | .obj .nil => 1
  | .obj (.cons _ v2 t) => 1 + nfM v2 t
termination_by sizeOf v
/-- Fuel needed by `pItems` for a non-empty rendered array body. -/
def nfI (h : Json) (t : JArr) : Nat :=
  match t with
  | .nil => 1 + nfV h
  | .cons h2 t2 => 1 + nfV h + nfI h2 t2
termination_by sizeOf h + sizeOf t
/-- Fuel needed by `pMembers` for a non-empty rendered object body. -/
def nfM (v : Json) (t : JObj) : Nat :=
  match t with
  | .nil => 1 + nfV v
  | .cons _ v2 t2 => 1 + nfV v + nfM v2 t2
termination_by sizeOf v + sizeOf t
end

/-- All characters are JSON whitespace. -/
def allWs (l : List Char) : Bool := l.all isWs

/-- The next character cannot extend a JSON number. -/
def numTail (l : List Char) : Bool :=
  match l with
  | [] => true
  | c :: _ => !isDigitCh c && !(c = '.' : Bool) && !(c = 'e' : Bool) && !(c = 'E' : Bool)

/-- A LIKE query without the `%` and `_` metacharacters. -/
def noWildcards (l : List Char) : Bool := l.all (fun c => !(c = '%' : Bool) && !(c = '_' : Bool))

/-- ASCII case folding of a character list. -/
def foldL (l : List Char) : List Char := l.map asciiFold

/-- The plain conjunctive reading of the advanced-search criteria (substring
matches ASCII-case-insensitively, numeric bounds, exact equalities). -/
def advPlainPred (name location : Option String) (minLen maxLen : Option Dec)
    (date difficulty : Option String) (parking : Option Bool) (r : HikeRow) : Bool :=
  optCrit name (fun n => decide (foldL n.data <:+: foldL r.name.data)) &&
  optCrit location (fun l => decide (foldL l.data <:+: foldL r.location.data)) &&
  optCrit minLen (fun d => decide (d.numLe r.lengthKm)) &&
  optCrit maxLen (fun d => decide (r.lengthKm.numLe d)) &&
  optCrit date (fun s => decide (r.date = s)) &&
  optCrit difficulty (fun s => decide (r.difficulty = s)) &&
  optCrit parking (fun b => r.parkingAvailable == b)

/-- Date-descending-then-name-ascending, as a relation on returned hikes. -/
def hikeDateNameLeP (a b : Hike) : Prop := b.date < a.date ∨ (a.date = b.date ∧ a.name ≤ b.name)

/-- Name-ascending, as a relation on returned hikes. -/
def hikeNameLeP (a b : Hike) : Prop := a.name ≤ b.name

/-- The row of the `hikes` table that `findDuplicateHike` would accept for a
decoded import: the six natural-key columns compared as the SQL does. -/
def dupRowMatch (e : HikeExportFormat) (r : HikeRow) : Prop :=
  r.name = e.name ∧ r.location = e.location ∧ r.date = e.date ∧
  r.lengthKm.numEq e.lengthKm ∧ r.difficulty = e.difficulty ∧
  r.parkingAvailable = e.parkingAvailable

instance (e : HikeExportFormat) (r : HikeRow) : Decidable (dupRowMatch e r) := by
  unfold dupRowMatch; infer_instance

/-- The required-field validation condition of `parseImportJson`, as a single
boolean (truthiness for five fields, only an `undefined` check for
`parkingAvailable`). -/
def requiredFieldMissing (data : Json) : Bool :=
  !jsTruthy (jGet data ("name")) || !jsTruthy (jGet data ("location")) ||
    !jsTruthy (jGet data ("date")) || (jGet data ("parkingAvailable")).isNone ||
    !jsTruthy (jGet data ("lengthKm")) || !jsTruthy (jGet data ("difficulty"))

/-- Property package of claim C9: optional fields supplied as `0` or the
empty string are read back as absent. -/
def zeroOptsAbsent (h g : Hike) : Prop :=
  (h.description = some "" → g.description = none) ∧
  (∀ d, h.elevationGainM = some d → d.isZero = true → g.elevationGainM = none) ∧
  (∀ d, h.rating = some d → d.isZero = true → g.rating = none) ∧
  (∀ d, h.latitude = some d → d.isZero = true → g.latitude = none) ∧
  (∀ d, h.longitude = some d → d.isZero = true → g.longitude = none)

/-- A `YYYY-MM-DD` date string. -/
def isYMD (s : String) : Bool :=
  match s.data with
  | [y1, y2, y3, y4, s1, m1, m2, s2, d1, d2] =>
    isDigitCh y1 && isDigitCh y2 && isDigitCh y3 && isDigitCh y4 && (s1 = '-' : Bool) &&
      isDigitCh m1 && isDigitCh m2 && (s2 = '-' : Bool) && isDigitCh d1 && isDigitCh d2
  | _ => false

/-- JavaScript `String.prototype.trim` whitespace (the ASCII WhiteSpace and
LineTerminator characters plus NBSP, LS, PS and the BOM). -/
def isJsWs (c : Char) : Bool :=
  c = ' ' || c = '\t' || c = '\n' || c = '\r' || c = '\x0b' || c = '\x0c' ||
    c = '\xa0' || c = '\u2028' || c = '\u2029' || c = '\ufeff'

/-- Model of JavaScript `s.trim()`: strip leading and trailing whitespace. -/
def jsTrim (s : String) : String :=
  String.mk (((s.data.dropWhile isJsWs).reverse.dropWhile isJsWs).reverse)

/-- Leap-year rule of the Gregorian calendar, as used by the JavaScript
`Date`. -/
def leapYear (y : Nat) : Bool := (y % 4 = 0 && !(y % 100 = 0)) || y % 400 = 0

/-- Days in a month of the Gregorian calendar. -/
def daysInMonth (y m : Nat) : Nat :=
  if m = 2 then (if leapYear y then 29 else 28)
  else if m = 4 || m = 6 || m = 9 || m = 11 then 30
  else 31

/-- Model of `isValidDate` of `lib/validation.ts` (staged with
`src/app/map-picker.tsx`): the `/^\d\x7b4\x7d-\d\x7b2\x7d-\d\x7b2\x7d$/` regex
test followed by the `new Date(dateString)` validity check — an ISO
`YYYY-MM-DD` string yields a valid `Date` exactly when its month is 01-12 and
its day is in calendar range for that month and year. -/
def isValidDate (s : String) : Bool :=
  match s.data with
  | [y1, y2, y3, y4, s1, m1, m2, s2, d1, d2] =>
    isDigitCh y1 && isDigitCh y2 && isDigitCh y3 && isDigitCh y4 && (s1 = '-' : Bool) &&
      isDigitCh m1 && isDigitCh m2 && (s2 = '-' : Bool) && isDigitCh d1 && isDigitCh d2 &&
      (let y := digitsVal [y1, y2, y3, y4]
       let m := digitsVal [m1, m2]
       let d := digitsVal [d1, d2]
       decide (1 ≤ m) && decide (m ≤ 12) && decide (1 ≤ d) && decide (d ≤ daysInMonth y m))
  | _ => false

/-- Model of `validateHike` of `lib/validation.ts` (staged with
`src/app/map-picker.tsx`), specialised to a complete `Hike` record (the
import/export flows only build complete records, so the `undefined` branches
of the `Partial<Hike>` argument do not arise): `true` exactly when the
returned error list is empty.  Each conjunct group mirrors one `if` block of
the source: non-blank trimmed name/location/date with length caps, a valid
calendar date, `0 < lengthKm ≤ 1000`, a difficulty from the three-value enum,
ranged optional elevation and rating, and a description cap checked only when
the description is truthy. -/
def hikeValidB (h : Hike) : Bool :=
  (!(h.name = "" : Bool) && !((jsTrim h.name).length = 0 : Bool) &&
    decide (h.name.length ≤ 100)) &&
  (!(h.location = "" : Bool) && !((jsTrim h.location).length = 0 : Bool) &&
    decide (h.location.length ≤ 200)) &&
  (!(h.date = "" : Bool) && !((jsTrim h.date).length = 0 : Bool) && isValidDate h.date) &&
  (!(h.lengthKm.numLe ⟨0, 0⟩ : Bool) && decide (h.lengthKm.numLe ⟨1000, 0⟩)) &&
  (!(h.difficulty = "" : Bool) &&
    ((h.difficulty = "Easy" : Bool) || (h.difficulty = "Moderate" : Bool) ||
      (h.difficulty = "Hard" : Bool))) &&
  (match h.elevationGainM with
   | some d => decide (Dec.numLe ⟨0, 0⟩ d) && decide (d.numLe ⟨9000, 0⟩)
   | none => true) &&
  (match h.rating with
   | some d => decide (Dec.numLe ⟨0, 0⟩ d) && decide (d.numLe ⟨5, 0⟩)
   | none => true) &&
  (match h.description with
   | some s => (s = "" : Bool) || decide (s.length ≤ 1000)
   | none => true)

/-- Validity of a hike, as a proposition: `validateHike` returns no errors. -/
def HikeValid (h : Hike) : Prop := hikeValidB h = true

instance (h : Hike) : Decidable (HikeValid h) := by
  unfold HikeValid; infer_instance

/-- Association-list lookup keeping the last duplicate key, mirroring
`jLookup` over `jObjOf`. -/
def listLookupLast : List (String × Json) → String → Option Json
  | [], _ => none
  | p :: t, key =>
    match listLookupLast t key with
    | some r => some r
    | none => if p.1 = key then some p.2 else none

/-- A fault schedule on which every database call succeeds. -/
def noFault : Nat → Option String := fun _ => none

/-- Concrete sample hike used by witnesses. -/
def hikeA : Hike :=
  { id := none, name := "Snowdon", location := "Llanberis, UK", date := "2025-07-10",
    parkingAvailable := true, lengthKm := ⟨145, 1⟩, difficulty := "Hard",
    description := some "Classic route", elevationGainM := some ⟨900, 0⟩,
    rating := some ⟨45, 1⟩, photoUri := none, latitude := none, longitude := none,
    addedToCalendar := some false }

/-- Sample hike whose optional fields are all supplied as zero or empty. -/
def hikeZero : Hike :=
  { hikeA with description := some "", elevationGainM := some ⟨0, 0⟩,
               rating := some ⟨0, 0⟩, latitude := some ⟨0, 1⟩, longitude := some ⟨0, 0⟩ }

/-- Sample valid hike whose name contains an opening brace. -/
def hikeBrace : Hike := { hikeA with name := "a\x7bb", description := none }

/-- Sample hike named `xyz`. -/
def hikeXyz : Hike := { hikeA with name := "xyz" }

/-- The next character cannot extend a digit run. -/
def headNotDigit (l : List Char) : Bool :=
  match l with
  | [] => true
  | c :: _ => !isDigitCh c

/-- No opening brace occurs in the character list. -/
def noBraceL (l : List Char) : Prop := ∀ c ∈ l, ¬ c = '\x7b'

instance (l : List Char) : Decidable (noBraceL l) := by
  unfold noBraceL
  infer_instance

/-! ## Theorems -/

theorem dec_numEq_comm (a b : Dec) : a.numEq b ↔ b.numEq a := by
  unfold Dec.numEq; exact eq_comm

/-- C1: deleting a stored hike removes, through the store's cascade rule,
every observation whose hikeId references it; `getObservationsByHikeId` on
the deleted id returns the empty list afterwards, and no observation with
that hikeId remains. -/
theorem c1_cascade_delete (st : Store) (hid : Nat)
    (hex : ∃ r ∈ st.hikes, r.id = hid) :
    getObservationsByHikeId hid (deleteHike hid st) = [] ∧
      ∀ o ∈ (deleteHike hid st).observations, ¬ o.hikeId = hid := by
  have hany : st.hikes.any (fun r => decide (r.id = hid)) = true := by
    rcases hex with ⟨r, hr, hid'⟩
    exact List.any_eq_true.mpr ⟨r, hr, by simp [hid']⟩
  constructor
  · unfold getObservationsByHikeId deleteHike
    simp only [hany, if_true]
    rw [List.filter_filter]
    have hnil : List.filter
        (fun a => decide (a.hikeId = hid) && decide (¬ a.hikeId = hid))
        st.observations = [] := by
      apply List.filter_eq_nil_iff.mpr
      intro a _
      by_cases hcase : a.hikeId = hid <;> simp [hcase]
    rw [hnil]
    rfl
  · intro o ho
    unfold deleteHike at ho
    simp only [hany, if_true] at ho
    have hmem := (List.mem_filter.mp ho).2
    simpa using hmem

/-- Witness for C1 at a concrete store holding one hike and one observation. -/
theorem c1_cascade_delete_witness :
    getObservationsByHikeId 1 (deleteHike 1 ((insertObservation
        { id := none, hikeId := 1, observation := "Saw a goat",
          timestamp := ⟨1000, 0⟩, comments := none, photoUri := none }
        (insertHike hikeA emptyStore).2).2)) = [] ∧
      ∀ o ∈ (deleteHike 1 ((insertObservation
        { id := none, hikeId := 1, observation := "Saw a goat",
          timestamp := ⟨1000, 0⟩, comments := none, photoUri := none }
        (insertHike hikeA emptyStore).2).2)).observations, ¬ o.hikeId = 1 :=
  c1_cascade_delete _ 1 (by decide)

/-- C10: `updateObservation` rewrites only the observation text, timestamp,
comments and photoUri columns; every row keeps its id and its hikeId, whatever
hikeId the supplied record carries. -/
theorem c10_update_observation_preserves_link (o : Observation) (st : Store) (i : Nat)
    (hi : o.id = some i) (hnz : ¬ i = 0) :
    ∃ st', updateObservation o st = .ok st' ∧
      st'.observations.length = st.observations.length ∧
      ∀ k : Nat, (st'.observations[k]?).map ObsRow.hikeId =
          (st.observations[k]?).map ObsRow.hikeId ∧
        (st'.observations[k]?).map ObsRow.id = (st.observations[k]?).map ObsRow.id := by
  simp only [updateObservation, hi]
  rw [if_neg hnz]
  refine ⟨_, rfl, ?_, ?_⟩
  · simp
  · intro k
    simp only [List.getElem?_map]
    cases hk : st.observations[k]? with
    | none => simp
    | some r =>
      constructor
      · have : (if r.id = i then
            { r with observation := o.observation, timestamp := o.timestamp,
                     comments := orNullStr o.comments,
                     photoUri := orNullStr o.photoUri } else r).hikeId = r.hikeId := by
          split <;> rfl
        simp [this]
      · have : (if r.id = i then
            { r with observation := o.observation, timestamp := o.timestamp,
                     comments := orNullStr o.comments,
                     photoUri := orNullStr o.photoUri } else r).id = r.id := by
          split <;> rfl
        simp [this]

/-- Witness for C10: updating a stored observation with a record that carries
a different hikeId. -/
theorem c10_update_observation_preserves_link_witness :
    ∃ st', updateObservation
        { id := some 1, hikeId := 99, observation := "edited",
          timestamp := ⟨2000, 0⟩, comments := none, photoUri := none }
        ((insertObservation
          { id := none, hikeId := 1, observation := "Saw a goat",
            timestamp := ⟨1000, 0⟩, comments := none, photoUri := none }
          (insertHike hikeA emptyStore).2).2) = .ok st' ∧
      st'.observations.length = ((insertObservation
          { id := none, hikeId := 1, observation := "Saw a goat",
            timestamp := ⟨1000, 0⟩, comments := none, photoUri := none }
          (insertHike hikeA emptyStore).2).2).observations.length ∧
      ∀ k : Nat, (st'.observations[k]?).map ObsRow.hikeId =
          (((insertObservation
            { id := none, hikeId := 1, observation := "Saw a goat",
              timestamp := ⟨1000, 0⟩, comments := none, photoUri := none }
            (insertHike hikeA emptyStore).2).2).observations[k]?).map ObsRow.hikeId ∧
        (st'.observations[k]?).map ObsRow.id =
          (((insertObservation
            { id := none, hikeId := 1, observation := "Saw a goat",
              timestamp := ⟨1000, 0⟩, comments := none, photoUri := none }
            (insertHike hikeA emptyStore).2).2).observations[k]?).map ObsRow.id :=
  c10_update_observation_preserves_link _ _ 1 rfl (by decide)

/-- C7: the import flow never propagates an exception — whenever the body of
the try block fails with a message, `importHikeFromJson` returns
`{success: false, message}` with that message and the state the attempt
reached. -/
theorem c7_import_catches_all_failures (fault : Nat → Option String) (text : String)
    (sn : Store × Nat) (e : String) (st' : Store) (n' : Nat)
    (h : importAttempt fault text sn = (.error e, st', n')) :
    importHikeFromJson fault text sn =
      ({ success := false, message := e, hikeId := none }, st', n') := by
  unfold importHikeFromJson
  rw [h]

/-- Witness for C7 on undecodable input. -/
theorem c7_import_catches_all_failures_witness :
    importHikeFromJson noFault ("not json") (emptyStore, 0) =
      ({ success := false, message := msgInvalidJson, hikeId := none }, emptyStore, 0) :=
  c7_import_catches_all_failures noFault ("not json") (emptyStore, 0)
    msgInvalidJson emptyStore 0 (by rfl)

theorem find?_congrH {α : Type} (p q : α → Bool) (l : List α) (h : ∀ a, p a = q a) :
    l.find? p = l.find? q := by
  induction l with
  | nil => rfl
  | cons a t ih => simp [List.find?_cons, h a, ih]

theorem find?_mapH {α β : Type} (f : α → β) (p : β → Bool) (l : List α) :
    (l.map f).find? p = (l.find? (fun a => p (f a))).map f := by
  induction l with
  | nil => rfl
  | cons a t ih =>
    simp only [List.map_cons, List.find?_cons]
    cases hpa : p (f a) <;> simp [hpa, ih]

/-- C9: optional numeric fields supplied as 0 (and an empty-string
description) are normalised to SQL NULL by the `x || null` binds of
`insertHike`, and read back as absent by `getHikeById`; `updateHike` performs
the same normalisation when it rewrites the row. -/
theorem c9_zero_optionals_stored_as_null (st : Store) (h : Hike) (hwf : StoreWF st) :
    (∃ g, getHikeById (insertHike h st).1 (insertHike h st).2 = some g ∧ zeroOptsAbsent h g) ∧
    (∀ i, h.id = some i → ¬ i = 0 → (∃ r ∈ st.hikes, r.id = i) →
      ∃ st' g, updateHike h st = .ok st' ∧ getHikeById i st' = some g ∧ zeroOptsAbsent h g) := by
  have habsent : ∀ g : Hike,
      g.description = orNullStr h.description →
      g.elevationGainM = orNullNum h.elevationGainM →
      g.rating = orNullNum h.rating →
      g.latitude = orNullNum h.latitude →
      g.longitude = orNullNum h.longitude → zeroOptsAbsent h g := by
    intro g h1 h2 h3 h4 h5
    refine ⟨?_, ?_, ?_, ?_, ?_⟩
    · intro hd; rw [h1, hd]; simp [orNullStr]
    · intro d hd hz; rw [h2, hd]; simp [orNullNum, hz]
    · intro d hd hz; rw [h3, hd]; simp [orNullNum, hz]
    · intro d hd hz; rw [h4, hd]; simp [orNullNum, hz]
    · intro d hd hz; rw [h5, hd]; simp [orNullNum, hz]
  constructor
  · have hnone : st.hikes.find? (fun r => decide (r.id = st.nextHikeId)) = none := by
      apply List.find?_eq_none.mpr
      intro r hr
      have := hwf.1 r hr
      simp only [decide_eq_true_eq]
      omega
    have hfind : getHikeById (insertHike h st).1 (insertHike h st).2 =
        some (rowToHike
          { id := st.nextHikeId, name := h.name, location := h.location,
            date := h.date, parkingAvailable := h.parkingAvailable,
            lengthKm := h.lengthKm, difficulty := h.difficulty,
            description := orNullStr h.description,
            elevationGainM := orNullNum h.elevationGainM,
            rating := orNullNum h.rating, photoUri := orNullStr h.photoUri,
            latitude := orNullNum h.latitude, longitude := orNullNum h.longitude,
            addedToCalendar := h.addedToCalendar.getD false }) := by
      unfold getHikeById insertHike
      simp only []
      rw [List.find?_append, hnone]
      simp [List.find?_cons]
    exact ⟨_, hfind, habsent _ rfl rfl rfl rfl rfl⟩
  · rintro i hid hnz ⟨r0, hr0mem, hr0id⟩
    simp only [updateHike, hid]
    rw [if_neg hnz]
    obtain ⟨rs, hrs⟩ : ∃ a, st.hikes.find? (fun r => decide (r.id = i)) = some a := by
      apply Option.isSome_iff_exists.mp
      rw [List.find?_isSome]
      exact ⟨r0, hr0mem, by simp [hr0id]⟩
    have hrsid : rs.id = i := by simpa using List.find?_some hrs
    have hupd : ∀ r : HikeRow, (updRow h i r).id = r.id := by
      intro r
      unfold updRow
      split <;> rfl
    have hfind2 : getHikeById i { st with hikes := st.hikes.map (updRow h i) } =
        some (rowToHike (updRow h i rs)) := by
      unfold getHikeById
      simp only []
      rw [find?_mapH]
      have hcongr : st.hikes.find? (fun r => decide ((updRow h i r).id = i)) =
          st.hikes.find? (fun r => decide (r.id = i)) := by
        apply find?_congrH
        intro a
        rw [hupd a]
      rw [hcongr, hrs]
      rfl
    refine ⟨_, rowToHike (updRow h i rs), rfl, hfind2, habsent _ ?_ ?_ ?_ ?_ ?_⟩
    all_goals simp [rowToHike, updRow, hrsid]

/-- Witness for C9 at a concrete one-hike store and a hike whose optional
fields are all zero or empty. -/
theorem c9_zero_optionals_stored_as_null_witness :
    (∃ g, getHikeById (insertHike { hikeZero with id := some 1 }
            (insertHike hikeA emptyStore).2).1
          (insertHike { hikeZero with id := some 1 } (insertHike hikeA emptyStore).2).2 =
          some g ∧ zeroOptsAbsent { hikeZero with id := some 1 } g) ∧
    (∀ i, ({ hikeZero with id := some 1 } : Hike).id = some i → ¬ i = 0 →
      (∃ r ∈ (insertHike hikeA emptyStore).2.hikes, r.id = i) →
      ∃ st' g, updateHike { hikeZero with id := some 1 } (insertHike hikeA emptyStore).2 =
          .ok st' ∧ getHikeById i st' = some g ∧ zeroOptsAbsent { hikeZero with id := some 1 } g) :=
  c9_zero_optionals_stored_as_null (insertHike hikeA emptyStore).2
    { hikeZero with id := some 1 } (by decide)

/-- C3: two hikes agreeing on all six natural-key fields (strings compared
exactly, numbers by exact numeric equality) are reported as duplicates by
`findDuplicateHike` whatever their other fields; hikes differing in at least
one natural-key field are not. -/
theorem c3_natural_key_duplicate (h1 h2 : Hike) :
    (natKeyEq h1 h2 → (findDuplicateHike h1 (insertHike h2 emptyStore).2).isSome = true) ∧
    (¬ natKeyEq h1 h2 → findDuplicateHike h1 (insertHike h2 emptyStore).2 = none) := by
  have key : (decide (h2.name = h1.name) && decide (h2.location = h1.location) &&
      decide (h2.date = h1.date) && decide (Dec.numEq h2.lengthKm h1.lengthKm) &&
      decide (h2.difficulty = h1.difficulty) &&
      (h2.parkingAvailable == h1.parkingAvailable)) = true ↔ natKeyEq h1 h2 := by
    unfold natKeyEq
    constructor
    · intro hb
      simp only [Bool.and_eq_true, decide_eq_true_eq, beq_iff_eq] at hb
      obtain ⟨⟨⟨⟨⟨n, l⟩, d⟩, k⟩, df⟩, p⟩ := hb
      exact ⟨n.symm, l.symm, d.symm, (dec_numEq_comm h1.lengthKm h2.lengthKm).mpr k,
        df.symm, p.symm⟩
    · rintro ⟨n, l, d, k, df, p⟩
      simp only [Bool.and_eq_true, decide_eq_true_eq, beq_iff_eq]
      exact ⟨⟨⟨⟨⟨n.symm, l.symm⟩, d.symm⟩, (dec_numEq_comm h2.lengthKm h1.lengthKm).mpr k⟩,
        df.symm⟩, p.symm⟩
  constructor
  · intro hk
    unfold findDuplicateHike insertHike emptyStore
    simp only [List.nil_append, List.find?_cons]
    rw [key.mpr hk]
    rfl
  · intro hk
    unfold findDuplicateHike insertHike emptyStore
    simp only [List.nil_append, List.find?_cons]
    have hb : (decide (h2.name = h1.name) && decide (h2.location = h1.location) &&
        decide (h2.date = h1.date) && decide (Dec.numEq h2.lengthKm h1.lengthKm) &&
        decide (h2.difficulty = h1.difficulty) &&
        (h2.parkingAvailable == h1.parkingAvailable)) = false := by
      cases hcase : (decide (h2.name = h1.name) && decide (h2.location = h1.location) &&
          decide (h2.date = h1.date) && decide (Dec.numEq h2.lengthKm h1.lengthKm) &&
          decide (h2.difficulty = h1.difficulty) &&
          (h2.parkingAvailable == h1.parkingAvailable)) with
      | false => rfl
      | true => exact absurd (key.mp hcase) hk
    rw [hb]
    rfl

/-- Witness for C3: a pair agreeing on the natural key but differing in
description and rating is reported as a duplicate. -/
theorem c3_natural_key_duplicate_witness :
    (findDuplicateHike { hikeA with description := none, rating := some ⟨30, 1⟩ }
      (insertHike hikeA emptyStore).2).isSome = true :=
  (c3_natural_key_duplicate { hikeA with description := none, rating := some ⟨30, 1⟩ }
    hikeA).1 (by decide)

theorem findDuplicateHike_isSome (hike : Hike) (st : Store)
    (hex : ∃ r ∈ st.hikes, r.name = hike.name ∧ r.location = hike.location ∧
      r.date = hike.date ∧ r.lengthKm.numEq hike.lengthKm ∧
      r.difficulty = hike.difficulty ∧ r.parkingAvailable = hike.parkingAvailable) :
    ∃ g, findDuplicateHike hike st = some g := by
  unfold findDuplicateHike
  rcases hex with ⟨r, hr, e1, e2, e3, e4, e5, e6⟩
  cases hfind : st.hikes.find? (fun rr =>
      decide (rr.name = hike.name) && decide (rr.location = hike.location) &&
      decide (rr.date = hike.date) && decide (rr.lengthKm.numEq hike.lengthKm) &&
      decide (rr.difficulty = hike.difficulty) &&
      (rr.parkingAvailable == hike.parkingAvailable)) with
  | some a => exact ⟨rowToHike a, rfl⟩
  | none =>
    exfalso
    apply List.find?_eq_none.mp hfind r hr
    simp [e1, e2, e3, e4, e5, e6]

/-- C4: when the decoded hike of an import text matches an already-stored
hike's natural key, the import returns success = false and the store is left
completely unchanged (no hike row and no observation row inserted). -/
theorem c4_import_duplicate_short_circuit (fault : Nat → Option String) (text : String)
    (st : Store) (n : Nat) (data : Json)
    (hdec : parseImportJson text = .ok data)
    (hdup : ∃ r ∈ st.hikes, dupRowMatch (jsonToExportFormat data) r) :
    (importHikeFromJson fault text (st, n)).2.1 = st ∧
      (importHikeFromJson fault text (st, n)).1.success = false := by
  unfold importHikeFromJson importAttempt
  rw [hdec]
  simp only []
  unfold dbCall
  cases hf : fault n with
  | some e => simp [hf]
  | none =>
    simp only [hf]
    obtain ⟨g, hg⟩ : ∃ g, findDuplicateHike
        (importCandidate (jsonToExportFormat data) none) st = some g := by
      apply findDuplicateHike_isSome
      rcases hdup with ⟨r, hr, e1, e2, e3, e4, e5, e6⟩
      exact ⟨r, hr, e1, e2, e3, e4, e5, e6⟩
    rw [hg]
    simp

/-- Witness for C4: an import text whose decoded hike matches the stored
hike's natural key. -/
theorem c4_import_duplicate_short_circuit_witness :
    (importHikeFromJson noFault
        ("\x7b\"name\":\"Snowdon\",\"location\":\"Llanberis, UK\",\"date\":\"2025-07-10\",\"parkingAvailable\":true,\"lengthKm\":14.5,\"difficulty\":\"Hard\"\x7d")
        ((insertHike hikeA emptyStore).2, 0)).2.1 = (insertHike hikeA emptyStore).2 ∧
      (importHikeFromJson noFault
        ("\x7b\"name\":\"Snowdon\",\"location\":\"Llanberis, UK\",\"date\":\"2025-07-10\",\"parkingAvailable\":true,\"lengthKm\":14.5,\"difficulty\":\"Hard\"\x7d")
        ((insertHike hikeA emptyStore).2, 0)).1.success = false :=
  c4_import_duplicate_short_circuit noFault
    ("\x7b\"name\":\"Snowdon\",\"location\":\"Llanberis, UK\",\"date\":\"2025-07-10\",\"parkingAvailable\":true,\"lengthKm\":14.5,\"difficulty\":\"Hard\"\x7d")
    (insertHike hikeA emptyStore).2 0
    (.obj (jObjOf [("name", .str "Snowdon"), ("location", .str "Llanberis, UK"),
      ("date", .str "2025-07-10"), ("parkingAvailable", .bool true),
      ("lengthKm", .num ⟨145, 1⟩), ("difficulty", .str "Hard")]))
    (by rfl) (by decide)

/-- C5 counterexample: decoding a text with `name` present fails with the
same fixed message as decoding a text where all six required fields are
missing — the message always lists all six field names, it does not name
exactly the missing ones; and a text whose first balanced brace block is
valid JSON still fails as invalid JSON, because extraction is greedy from the
first opening brace to the last closing brace, not to the first balanced
block. -/
theorem c5_counterexample :
    parseImportJson ("\x7b\"name\":\"X\"\x7d") = .error msgMissingFields ∧
    parseImportJson ("\x7b\x7d") = .error msgMissingFields ∧
    parseImportJson ("\x7b\"a\":1\x7d tail \x7b\"b\":2\x7d") = .error msgInvalidJson :=
  ⟨rfl, rfl, rfl⟩

/-- C5 (amended): decode extracts the substring from the first opening brace
through the last closing brace, parses it as JSON, and fails with the fixed
FormatError message listing all six required field names whenever any of
name, location, date, parkingAvailable, lengthKm, difficulty is absent (or
falsy); unparseable text fails with the fixed invalid-JSON FormatError. -/
theorem c5_amended_decode_validation (text : String) :
    (parseImportJson text = .error msgInvalidJson ↔
      jsonParse (extractJsonBlock text.data) = none) ∧
    (parseImportJson text = .error msgMissingFields ↔
      ∃ data, jsonParse (extractJsonBlock text.data) = some data ∧
        isNullJson data = false ∧ requiredFieldMissing data = true) := by
  have hA : ¬ msgInvalidJson = msgMissingFields := by decide
  have hB : ¬ msgInvalidData = msgInvalidJson := by decide
  have hC : ¬ msgInvalidData = msgMissingFields := by decide
  have hD : ¬ msgMissingFields = msgInvalidJson := by decide
  cases hp : jsonParse (extractJsonBlock text.data) with
  | none =>
    have hval : parseImportJson text = .error msgInvalidJson := by
      unfold parseImportJson
      rw [hp]
    rw [hval]
    exact ⟨by simp, by simp [hA]⟩
  | some data =>
    have hval : parseImportJson text =
        (if isNullJson data = true then Except.error msgInvalidData
         else if (!jsTruthy (jGet data ("name")) || !jsTruthy (jGet data ("location")) ||
            !jsTruthy (jGet data ("date")) || (jGet data ("parkingAvailable")).isNone ||
            !jsTruthy (jGet data ("lengthKm")) || !jsTruthy (jGet data ("difficulty"))) = true
           then Except.error msgMissingFields else Except.ok data) := by
      unfold parseImportJson
      rw [hp]
    cases hnull : isNullJson data with
    | false =>
      rw [if_neg (by rw [hnull]; exact Bool.false_ne_true)] at hval
      cases hcond : (!jsTruthy (jGet data ("name")) ||
          !jsTruthy (jGet data ("location")) || !jsTruthy (jGet data ("date")) ||
          (jGet data ("parkingAvailable")).isNone || !jsTruthy (jGet data ("lengthKm")) ||
          !jsTruthy (jGet data ("difficulty"))) with
      | false =>
        rw [if_neg (by rw [hcond]; exact Bool.false_ne_true)] at hval
        rw [hval]
        constructor
        · constructor
          · intro hcontra
            exact absurd hcontra (by simp)
          · intro hcontra
            exact absurd hcontra (by simp)
        · constructor
          · intro hcontra
            exact absurd hcontra (by simp)
          · rintro ⟨d2, hd2, hn2, hmiss2⟩
            have hde := Option.some_inj.mp hd2
            subst hde
            unfold requiredFieldMissing at hmiss2
            rw [hcond] at hmiss2
            exact absurd hmiss2 (by simp)
      | true =>
        rw [if_pos hcond] at hval
        rw [hval]
        constructor
        · constructor
          · intro hmsg
            exact absurd (Except.error.inj hmsg) hD
          · intro hcontra
            exact absurd hcontra (by simp)
        · constructor
          · intro _
            exact ⟨data, rfl, hnull, by unfold requiredFieldMissing; exact hcond⟩
          · intro _
            rfl
    | true =>
      rw [if_pos hnull] at hval
      rw [hval]
      constructor
      · constructor
        · intro hmsg
          exact absurd (Except.error.inj hmsg) hB
        · intro hcontra
          exact absurd hcontra (by simp)
      · constructor
        · intro hmsg
          exact absurd (Except.error.inj hmsg) hC
        · rintro ⟨d2, hd2, hn2, hmiss2⟩
          have hde := Option.some_inj.mp hd2
          subst hde
          rw [hnull] at hn2
          exact absurd hn2 (by simp)

/-- Witness for the amended C5: the spec's own example input, decoded through
the amended characterisation. -/
theorem c5_amended_decode_validation_witness :
    parseImportJson ("\x7b\"name\":\"X\"\x7d") = .error msgMissingFields :=
  (c5_amended_decode_validation ("\x7b\"name\":\"X\"\x7d")).2.mpr
    ⟨.obj (jObjOf [("name", .str "X")]), by rfl, by rfl, by rfl⟩

theorem likeMatch_pct_nilp (p : List Char) : likeMatch ('%' :: p) [] = likeMatch p [] := by
  rw [likeMatch.eq_def]
  simp

theorem likeMatch_pct_consp (p : List Char) (c : Char) (s : List Char) :
    likeMatch ('%' :: p) (c :: s) = (likeMatch p (c :: s) || likeMatch ('%' :: p) s) := by
  rw [likeMatch.eq_def]
  simp

theorem likeMatch_lit_cons (c : Char) (p : List Char) (d : Char) (s : List Char)
    (hc1 : ¬ c = '%') (hc2 : ¬ c = '_') :
    likeMatch (c :: p) (d :: s) = (decide (asciiFold c = asciiFold d) && likeMatch p s) := by
  rw [likeMatch.eq_def]
  split <;> first | rfl | simp_all

theorem likeMatch_cons_nil (c : Char) (p : List Char) (hc1 : ¬ c = '%') :
    likeMatch (c :: p) [] = false := by
  rw [likeMatch.eq_def]
  split <;> first | rfl | simp_all

theorem likeMatch_pct_one (s : List Char) : likeMatch ['%'] s = true := by
  induction s with
  | nil =>
    rw [likeMatch.eq_def]
    simp [likeMatch.eq_def]
  | cons c s' ih =>
    rw [likeMatch_pct_consp]
    simp [ih]

theorem likeMatch_pct_iff (p s : List Char) :
    likeMatch ('%' :: p) s = true ↔ ∃ t, t <:+ s ∧ likeMatch p t = true := by
  induction s with
  | nil =>
    rw [likeMatch_pct_nilp]
    constructor
    · intro h
      exact ⟨[], List.suffix_rfl, h⟩
    · rintro ⟨t, hts, hm⟩
      rw [List.suffix_nil.mp hts] at hm
      exact hm
  | cons c s' ih =>
    rw [likeMatch_pct_consp]
    constructor
    · intro h
      rcases Bool.or_eq_true_iff.mp h with h1 | h2
      · exact ⟨c :: s', List.suffix_rfl, h1⟩
      · obtain ⟨t, hts, hm⟩ := ih.mp h2
        exact ⟨t, hts.trans (List.suffix_cons c s'), hm⟩
    · rintro ⟨t, hts, hm⟩
      rcases List.suffix_cons_iff.mp hts with h1 | h2
      · subst h1
        exact Bool.or_eq_true_iff.mpr (Or.inl hm)
      · exact Bool.or_eq_true_iff.mpr (Or.inr (ih.mpr ⟨t, h2, hm⟩))

theorem likeMatch_lit_iff (q : List Char) (hq : noWildcards q = true) :
    ∀ s, likeMatch (q ++ ['%']) s = true ↔ foldL q <+: foldL s := by
  induction q with
  | nil =>
    intro s
    simp only [List.nil_append]
    rw [likeMatch_pct_one]
    simp [foldL]
  | cons c q' ih =>
    have hq' : noWildcards q' = true := by
      simp only [noWildcards, List.all_cons, Bool.and_eq_true] at hq
      exact hq.2
    have hc1 : ¬ c = '%' := by
      simp only [noWildcards, List.all_cons, Bool.and_eq_true] at hq
      simpa using hq.1.1
    have hc2 : ¬ c = '_' := by
      simp only [noWildcards, List.all_cons, Bool.and_eq_true] at hq
      simpa using hq.1.2
    intro s
    cases s with
    | nil =>
      rw [List.cons_append, likeMatch_cons_nil c (q' ++ ['%']) hc1]
      simp [foldL]
    | cons d s' =>
      rw [List.cons_append, likeMatch_lit_cons c (q' ++ ['%']) d s' hc1 hc2]
      simp only [foldL, List.map_cons, List.cons_prefix_cons, Bool.and_eq_true,
        decide_eq_true_eq]
      constructor
      · rintro ⟨he, hm⟩
        exact ⟨he, (ih hq' s').mp hm⟩
      · rintro ⟨he, hpre⟩
        exact ⟨he, (ih hq' s').mpr hpre⟩

theorem suffix_map_inv {α β : Type} (f : α → β) (t' : List β) (s : List α)
    (h : t' <:+ List.map f s) : ∃ t, t <:+ s ∧ t' = List.map f t := by
  obtain ⟨u, hu⟩ := h
  obtain ⟨l1, l2, hs, _, hl2⟩ := List.map_eq_append_iff.mp hu.symm
  exact ⟨l2, ⟨l1, hs.symm⟩, hl2.symm⟩

theorem likeMatch_contains_iff (q s : List Char) (hq : noWildcards q = true) :
    likeMatch ('%' :: q ++ ['%']) s = true ↔ foldL q <:+: foldL s := by
  have hshape : ('%' :: q ++ ['%']) = '%' :: (q ++ ['%']) := rfl
  rw [hshape, likeMatch_pct_iff]
  constructor
  · rintro ⟨t, hts, hm⟩
    exact List.infix_iff_prefix_suffix.mpr
      ⟨foldL t, (likeMatch_lit_iff q hq t).mp hm, List.IsSuffix.map asciiFold hts⟩
  · intro hinf
    obtain ⟨t', hpre, hsuf⟩ := List.infix_iff_prefix_suffix.mp hinf
    obtain ⟨t, hts, hteq⟩ := suffix_map_inv asciiFold t' s hsuf
    subst hteq
    exact ⟨t, hts, (likeMatch_lit_iff q hq t).mpr hpre⟩

theorem likeMatch_us_cons (p : List Char) (d : Char) (s : List Char) :
    likeMatch ('_' :: p) (d :: s) = likeMatch p s := by
  rw [likeMatch.eq_def]
  simp

theorem likeMatch_nil_nil : likeMatch [] [] = true := by
  rw [likeMatch.eq_def]

/-- C8 (amended): for query texts free of the LIKE metacharacters `%` and
`_`, `searchHikes` returns exactly the hikes whose name contains the query as
an ASCII-case-insensitive substring, ordered by name ascending. -/
theorem c8_amended_search_substring (q : String) (st : Store)
    (hq : noWildcards q.data = true) :
    (searchHikes q st).Perm ((st.hikes.filter (fun r =>
        decide (foldL q.data <:+: foldL r.name.data))).map rowToHike) ∧
    List.Pairwise hikeNameLeP (searchHikes q st) := by
  have hfc : st.hikes.filter (fun r => likeMatch ('%' :: q.data ++ ['%']) r.name.data) =
      st.hikes.filter (fun r => decide (foldL q.data <:+: foldL r.name.data)) := by
    apply List.filter_congr
    intro r _
    cases hlm : likeMatch ('%' :: q.data ++ ['%']) r.name.data with
    | true =>
      have hin := (likeMatch_contains_iff q.data r.name.data hq).mp hlm
      simp [hin]
    | false =>
      by_cases hin : foldL q.data <:+: foldL r.name.data
      · exact absurd ((likeMatch_contains_iff q.data r.name.data hq).mpr hin)
          (by rw [hlm]; exact Bool.false_ne_true)
      · simp [hin]
  constructor
  · unfold searchHikes
    rw [hfc]
    exact List.Perm.map rowToHike (List.perm_insertionSort hikeNameLe _)
  · unfold searchHikes
    refine List.Pairwise.map rowToHike ?_ (List.sorted_insertionSort hikeNameLe _)
    intro a b hab
    exact hab

/-- Witness for the amended C8 at a concrete store and wildcard-free query. -/
theorem c8_amended_search_substring_witness :
    (searchHikes ("Snow") (insertHike hikeA emptyStore).2).Perm
        (((insertHike hikeA emptyStore).2.hikes.filter (fun r =>
          decide (foldL ("Snow").data <:+: foldL r.name.data))).map rowToHike) ∧
      List.Pairwise hikeNameLeP (searchHikes ("Snow") (insertHike hikeA emptyStore).2) :=
  c8_amended_search_substring ("Snow") (insertHike hikeA emptyStore).2 (by decide)

/-- C8 counterexample: the query `x_z` returns the hike named `xyz`, although
`xyz` does not contain `x_z` as a (case-insensitive) substring — the
underscore in the query acts as a LIKE single-character wildcard. -/
theorem c8_counterexample :
    (searchHikes ("x_z") (insertHike hikeXyz emptyStore).2).map Hike.name = ["xyz"] ∧
      ¬ foldL ("x_z").data <:+: foldL ("xyz").data := by
  constructor
  · have hlm : likeMatch ('%' :: ("x_z").data ++ ['%']) ("xyz").data = true := by
      have e1 : ('%' :: ("x_z").data ++ ['%']) = '%' :: 'x' :: '_' :: 'z' :: '%' :: [] := rfl
      have e2 : ("xyz").data = 'x' :: 'y' :: 'z' :: [] := rfl
      rw [e1, e2, likeMatch_pct_consp]
      have l1 : likeMatch ('x' :: '_' :: 'z' :: '%' :: []) ('x' :: 'y' :: 'z' :: []) = true := by
        rw [likeMatch_lit_cons _ _ _ _ (by decide) (by decide), likeMatch_us_cons,
          likeMatch_lit_cons _ _ _ _ (by decide) (by decide), likeMatch_pct_nilp,
          likeMatch_nil_nil]
        decide
      rw [l1]
      rfl
    unfold searchHikes insertHike emptyStore hikeXyz hikeA
    simp only [List.nil_append, List.filter_cons, List.filter_nil]
    rw [if_pos hlm]
    rfl
  · decide

theorem bool_eq_decide {p : Prop} [inst : Decidable p] {b : Bool} (h : b = true ↔ p) :
    b = decide p := by
  cases b with
  | true => exact (decide_eq_true (h.mp rfl)).symm
  | false =>
    cases hd : decide p with
    | false => rfl
    | true => exact absurd (h.mpr (of_decide_eq_true hd)) (by simp)

/-- C6 (amended): for criteria sets whose string criteria are non-empty and
whose name/location criteria contain no LIKE metacharacters, advancedSearch
returns exactly the hikes satisfying the conjunction of the supplied
predicates (substring matches ASCII-case-insensitive), ordered by date
descending then name ascending; with all criteria absent it returns every
hike in that order, literally the list `getAllHikes` returns, which is sorted
the same way. -/
theorem c6_amended_advanced_search (name location : Option String)
    (minLen maxLen : Option Dec) (date difficulty : Option String) (parking : Option Bool)
    (st : Store)
    (hname : ∀ s, name = some s → ¬ s = "" ∧ noWildcards s.data = true)
    (hloc : ∀ s, location = some s → ¬ s = "" ∧ noWildcards s.data = true)
    (hdate : ∀ s, date = some s → ¬ s = "")
    (hdiff : ∀ s, difficulty = some s → ¬ s = "") :
    (advancedSearchHikes name location minLen maxLen date difficulty parking st).Perm
        ((st.hikes.filter
          (advPlainPred name location minLen maxLen date difficulty parking)).map
          rowToHike) ∧
    List.Pairwise hikeDateNameLeP
      (advancedSearchHikes name location minLen maxLen date difficulty parking st) ∧
    advancedSearchHikes none none none none none none none st = getAllHikes st ∧
    List.Pairwise hikeDateNameLeP (getAllHikes st) := by
  have hmap : ∀ (a b : HikeRow), hikeDateNameLe a b → hikeDateNameLeP (rowToHike a) (rowToHike b) :=
    fun a b hab => hab
  have hfc : st.hikes.filter (advMatches name location minLen maxLen date difficulty parking) =
      st.hikes.filter (advPlainPred name location minLen maxLen date difficulty parking) := by
    apply List.filter_congr
    intro r _
    unfold advMatches advPlainPred
    have e1 : optCritStr name (fun n => likeMatch ('%' :: n.data ++ ['%']) r.name.data) =
        optCrit name (fun n => decide (foldL n.data <:+: foldL r.name.data)) := by
      cases name with
      | none => rfl
      | some s =>
        simp only [optCritStr, optCrit]
        rw [if_neg (hname s rfl).1]
        exact bool_eq_decide (likeMatch_contains_iff s.data r.name.data (hname s rfl).2)
    have e2 : optCritStr location (fun l => likeMatch ('%' :: l.data ++ ['%']) r.location.data) =
        optCrit location (fun l => decide (foldL l.data <:+: foldL r.location.data)) := by
      cases location with
      | none => rfl
      | some s =>
        simp only [optCritStr, optCrit]
        rw [if_neg (hloc s rfl).1]
        exact bool_eq_decide (likeMatch_contains_iff s.data r.location.data (hloc s rfl).2)
    have e5 : optCritStr date (fun s => decide (r.date = s)) =
        optCrit date (fun s => decide (r.date = s)) := by
      cases date with
      | none => rfl
      | some s =>
        simp only [optCritStr, optCrit]
        rw [if_neg (hdate s rfl)]
    have e6 : optCritStr difficulty (fun s => decide (r.difficulty = s)) =
        optCrit difficulty (fun s => decide (r.difficulty = s)) := by
      cases difficulty with
      | none => rfl
      | some s =>
        simp only [optCritStr, optCrit]
        rw [if_neg (hdiff s rfl)]
    rw [e1, e2, e5, e6]
  refine ⟨?_, ?_, ?_, ?_⟩
  · unfold advancedSearchHikes
    rw [hfc]
    exact List.Perm.map rowToHike (List.perm_insertionSort hikeDateNameLe _)
  · unfold advancedSearchHikes
    exact List.Pairwise.map rowToHike hmap (List.sorted_insertionSort hikeDateNameLe _)
  · unfold advancedSearchHikes getAllHikes
    have hall : List.filter (advMatches none none none none none none none) st.hikes =
        st.hikes := by
      apply List.filter_eq_self.mpr
      intro a _
      rfl
    rw [hall]
  · unfold getAllHikes
    exact List.Pairwise.map rowToHike hmap (List.sorted_insertionSort hikeDateNameLe _)

/-- Witness for the amended C6 at a concrete store and criteria set. -/
theorem c6_amended_advanced_search_witness :
    (advancedSearchHikes (some ("Snow")) none (some ⟨5, 0⟩) none none (some ("Hard")) none
        (insertHike hikeA emptyStore).2).Perm
        (((insertHike hikeA emptyStore).2.hikes.filter
          (advPlainPred (some ("Snow")) none (some ⟨5, 0⟩) none none (some ("Hard")) none)).map
          rowToHike) ∧
    List.Pairwise hikeDateNameLeP
      (advancedSearchHikes (some ("Snow")) none (some ⟨5, 0⟩) none none (some ("Hard")) none
        (insertHike hikeA emptyStore).2) ∧
    advancedSearchHikes none none none none none none none (insertHike hikeA emptyStore).2 =
      getAllHikes (insertHike hikeA emptyStore).2 ∧
    List.Pairwise hikeDateNameLeP (getAllHikes (insertHike hikeA emptyStore).2) :=
  c6_amended_advanced_search (some ("Snow")) none (some ⟨5, 0⟩) none none (some ("Hard")) none
    (insertHike hikeA emptyStore).2
    (fun s hs => by rw [← Option.some_inj.mp hs]; exact ⟨by decide, by decide⟩)
    (fun s hs => by cases hs)
    (fun s hs => by cases hs)
    (fun s hs => by rw [← Option.some_inj.mp hs]; decide)

/-- C6 counterexample: a criteria set whose only criterion is date equals the
empty string returns a hike whose date is not the empty string — JavaScript
truthiness makes the empty-string criterion act as absent instead of
filtering. -/
theorem c6_counterexample :
    (advancedSearchHikes none none none none (some ("")) none none
        (insertHike hikeA emptyStore).2).map Hike.date = ["2025-07-10"] ∧
      ¬ ("2025-07-10" : String) = "" :=
  ⟨rfl, by decide⟩

theorem digitChar_isDigit (k : Nat) (hk : k < 10) : isDigitCh (digitChar k) = true := by
  interval_cases k <;> decide

theorem digitVal_digitChar (k : Nat) (hk : k < 10) : digitVal (digitChar k) = k := by
  interval_cases k <;> decide

theorem natDigitsF_all (fuel : Nat) : ∀ n, n < fuel →
    ∀ c ∈ natDigitsF fuel n, isDigitCh c = true := by
  induction fuel with
  | zero => intro n hn; omega
  | succ fuel ih =>
    intro n _ c hc
    unfold natDigitsF at hc
    by_cases h10 : n < 10
    · rw [if_pos h10] at hc
      simp only [List.mem_singleton] at hc
      rw [hc]
      exact digitChar_isDigit n h10
    · rw [if_neg h10] at hc
      rcases List.mem_append.mp hc with h1 | h2
      · exact ih (n / 10) (by omega) c h1
      · simp only [List.mem_singleton] at h2
        rw [h2]
        exact digitChar_isDigit (n % 10) (Nat.mod_lt n (by omega))

theorem natDigits_all (n : Nat) : ∀ c ∈ natDigits n, isDigitCh c = true :=
  natDigitsF_all (n + 1) n (Nat.lt_succ_self n)

theorem natDigitsF_ne_nil (fuel : Nat) : ∀ n, n < fuel → ¬ natDigitsF fuel n = [] := by
  induction fuel with
  | zero => intro n hn; omega
  | succ fuel _ =>
    intro n _
    unfold natDigitsF
    by_cases h10 : n < 10
    · rw [if_pos h10]
      simp
    · rw [if_neg h10]
      simp

theorem natDigits_ne_nil (n : Nat) : ¬ natDigits n = [] :=
  natDigitsF_ne_nil (n + 1) n (Nat.lt_succ_self n)

theorem digitsVal_foldl (l : List Char) : ∀ a : Nat,
    List.foldl (fun acc c => acc * 10 + digitVal c) a l = a * 10 ^ l.length + digitsVal l := by
  induction l with
  | nil => intro a; simp [digitsVal]
  | cons c t ih =>
    intro a
    simp only [List.foldl_cons, digitsVal, List.length_cons]
    rw [ih (a * 10 + digitVal c), ih (0 * 10 + digitVal c)]
    ring

theorem digitsVal_append (a b : List Char) :
    digitsVal (a ++ b) = digitsVal a * 10 ^ b.length + digitsVal b := by
  unfold digitsVal
  rw [List.foldl_append]
  rw [digitsVal_foldl]
  rfl

theorem natDigitsF_val (fuel : Nat) : ∀ n, n < fuel → digitsVal (natDigitsF fuel n) = n := by
  induction fuel with
  | zero => intro n hn; omega
  | succ fuel ih =>
    intro n _
    unfold natDigitsF
    by_cases h10 : n < 10
    · rw [if_pos h10]
      simp only [digitsVal, List.foldl_cons, List.foldl_nil]
      rw [digitVal_digitChar n h10]
      omega
    · rw [if_neg h10]
      rw [digitsVal_append, ih (n / 10) (by omega)]
      simp only [List.length_singleton, pow_one, digitsVal, List.foldl_cons, List.foldl_nil]
      rw [digitVal_digitChar (n % 10) (Nat.mod_lt n (by omega))]
      omega

theorem natDigits_val (n : Nat) : digitsVal (natDigits n) = n :=
  natDigitsF_val (n + 1) n (Nat.lt_succ_self n)

theorem digitsVal_leading_zeros (k : Nat) (l : List Char) :
    digitsVal (List.replicate k '0' ++ l) = digitsVal l := by
  rw [digitsVal_append]
  have hz : digitsVal (List.replicate k '0') = 0 := by
    induction k with
    | zero => rfl
    | succ k ihk =>
      rw [List.replicate_succ]
      have : digitsVal ('0' :: List.replicate k '0') =
          List.foldl (fun acc c => acc * 10 + digitVal c) (0 * 10 + digitVal '0')
            (List.replicate k '0') := rfl
      rw [this, digitsVal_foldl]
      simp [digitVal, ihk]
  rw [hz]
  simp

theorem takeDigits_append (ds rest : List Char) (hds : ∀ c ∈ ds, isDigitCh c = true)
    (hrest : headNotDigit rest = true) : takeDigits (ds ++ rest) = (ds, rest) := by
  induction ds with
  | nil =>
    simp only [List.nil_append]
    cases rest with
    | nil => rfl
    | cons c r =>
      unfold headNotDigit at hrest
      simp only [Bool.not_eq_true'] at hrest
      unfold takeDigits
      rw [hrest]
      simp
  | cons c t ih =>
    simp only [List.cons_append]
    unfold takeDigits
    rw [hds c (List.mem_cons_self c t)]
    rw [ih (fun x hx => hds x (List.mem_cons_of_mem c hx))]
    rfl

theorem digit_not_ws (c : Char) (h : isDigitCh c = true) : isWs c = false := by
  unfold isDigitCh at h
  simp only [Bool.and_eq_true, decide_eq_true_eq] at h
  unfold isWs
  simp only [Bool.or_eq_false_iff, decide_eq_false_iff_not]
  refine ⟨⟨⟨?_, ?_⟩, ?_⟩, ?_⟩ <;> intro he <;> subst he <;> revert h <;> decide

theorem digit_ne (c x : Char) (h : isDigitCh c = true) (hx : isDigitCh x = false) :
    ¬ c = x := by
  intro he
  rw [he, hx] at h
  cases h

theorem allWs_spacesN (n : Nat) : allWs (spacesN n) = true := by
  unfold allWs spacesN
  rw [List.all_eq_true]
  intro c hc
  rw [List.eq_of_mem_replicate hc]
  decide

theorem skipWs_cons_pos (c : Char) (l : List Char) (h : isWs c = true) :
    skipWs (c :: l) = skipWs l := by
  simp [skipWs, h]

theorem skipWs_cons_neg (c : Char) (l : List Char) (h : isWs c = false) :
    skipWs (c :: l) = c :: l := by
  simp [skipWs, h]

theorem skipWs_append_allWs (u l : List Char) (hu : allWs u = true) :
    skipWs (u ++ l) = skipWs l := by
  induction u with
  | nil => rfl
  | cons c t ih =>
    unfold allWs at hu
    simp only [List.all_cons, Bool.and_eq_true] at hu
    rw [List.cons_append, skipWs_cons_pos c _ hu.1]
    exact ih hu.2

theorem decPadded_digits (d : Dec) : ∀ c ∈ decPadded d, isDigitCh c = true := by
  intro c hc
  simp only [decPadded] at hc
  split at hc
  · rcases List.mem_append.mp hc with h1 | h1
    · rw [List.eq_of_mem_replicate h1]
      decide
    · exact natDigits_all _ c h1
  · exact natDigits_all _ c hc

theorem decPadded_len (d : Dec) : d.e + 1 ≤ (decPadded d).length := by
  simp only [decPadded]
  split
  · rw [List.length_append, List.length_replicate]
    omega
  · omega

theorem decPadded_ne_nil (d : Dec) : ¬ decPadded d = [] := by
  intro h
  have := decPadded_len d
  rw [h] at this
  simp at this

theorem decPadded_val (d : Dec) : digitsVal (decPadded d) = d.m.natAbs := by
  simp only [decPadded]
  split
  · rw [digitsVal_leading_zeros]
    exact natDigits_val _
  · exact natDigits_val _

theorem decBody_shape (d : Dec) : ∃ c cs, decBody d = c :: cs ∧ isDigitCh c = true := by
  simp only [decBody]
  split
  · cases hp : decPadded d with
    | nil => exact absurd hp (decPadded_ne_nil d)
    | cons c cs =>
      exact ⟨c, cs, rfl, decPadded_digits d c (by rw [hp]; exact List.mem_cons_self c cs)⟩
  · rename_i he
    have hlen := decPadded_len d
    cases hp : decPadded d with
    | nil => exact absurd hp (decPadded_ne_nil d)
    | cons a rest =>
      rw [hp] at hlen
      simp only [List.length_cons] at hlen
      have hT : (a :: rest).length - d.e = (rest.length - d.e) + 1 := by
        simp only [List.length_cons]
        omega
      rw [hT, List.take_succ_cons]
      refine ⟨a, _, rfl, ?_⟩
      exact decPadded_digits d a (by rw [hp]; exact List.mem_cons_self a rest)

theorem decRender_shape (d : Dec) :
    ∃ c cs, decRender d = c :: cs ∧ (c = '-' ∨ isDigitCh c = true) := by
  unfold decRender
  split
  · exact ⟨'-', decBody d, rfl, Or.inl rfl⟩
  · obtain ⟨c, cs, hb, hd⟩ := decBody_shape d
    exact ⟨c, cs, hb, Or.inr hd⟩

theorem decRender_ne_nil (d : Dec) : ¬ decRender d = [] := by
  obtain ⟨c, cs, hb, _⟩ := decRender_shape d
  rw [hb]
  simp

theorem renderV_shape (ind : Nat) (v : Json) :
    ∃ c cs, renderV ind v = c :: cs ∧ isWs c = false ∧ ¬ c = ']' ∧ ¬ c = '\x7d' := by
  cases v with
  | null => exact ⟨'n', _, rfl, by decide, by decide, by decide⟩
  | bool b =>
    cases b
    · exact ⟨'f', _, rfl, by decide, by decide, by decide⟩
    · exact ⟨'t', _, rfl, by decide, by decide, by decide⟩
  | num d =>
    obtain ⟨c, cs, hb, hd⟩ := decRender_shape d
    refine ⟨c, cs, by simp [renderV, hb], ?_, ?_, ?_⟩
    · rcases hd with h | h
      · rw [h]; decide
      · exact digit_not_ws c h
    · rcases hd with h | h
      · rw [h]; decide
      · exact digit_ne c _ h (by decide)
    · rcases hd with h | h
      · rw [h]; decide
      · exact digit_ne c _ h (by decide)
  | str s => exact ⟨'"', _, rfl, by decide, by decide, by decide⟩
  | arr a =>
    cases a
    · exact ⟨'[', _, rfl, by decide, by decide, by decide⟩
    · exact ⟨'[', _, rfl, by decide, by decide, by decide⟩
  | obj o =>
    cases o
    · exact ⟨'\x7b', _, rfl, by decide, by decide, by decide⟩
    · exact ⟨'\x7b', _, rfl, by decide, by decide, by decide⟩

theorem hexVal_hexDigitChar (k : Nat) (h : k < 16) : hexVal (hexDigitChar k) = some k := by
  interval_cases k <;> rfl

theorem parseStr_cons_other (c : Char) (r : List Char) (hq : ¬ c = '"')
    (hb : ¬ c = '\\') : parseStr (c :: r) = (parseStr r).map (fun p => (c :: p.1, p.2)) := by
  rw [parseStr.eq_def]
  split <;> simp_all

theorem escContent_cons (c : Char) (t : List Char) :
    escContent (c :: t) = escChar c ++ escContent t := rfl

theorem parseStr_escContent : ∀ (s rest : List Char),
    parseStr (escContent s ++ '"' :: rest) = some (s, rest) := by
  intro s
  induction s with
  | nil => intro rest; rfl
  | cons c t ih =>
    intro rest
    rw [escContent_cons, List.append_assoc]
    unfold escChar
    by_cases h1 : c = '"'
    · rw [if_pos h1]
      simp only [List.cons_append, parseStr, List.append_eq, List.nil_append]
      rw [ih rest, h1]
      rfl
    rw [if_neg h1]
    by_cases h2 : c = '\\'
    · rw [if_pos h2]
      simp only [List.cons_append, parseStr, List.append_eq, List.nil_append]
      rw [ih rest, h2]
      rfl
    rw [if_neg h2]
    by_cases h3 : c = '\n'
    · rw [if_pos h3]
      simp only [List.cons_append, parseStr, List.append_eq, List.nil_append]
      rw [ih rest, h3]
      rfl
    rw [if_neg h3]
    by_cases h4 : c = '\t'
    · rw [if_pos h4]
      simp only [List.cons_append, parseStr, List.append_eq, List.nil_append]
      rw [ih rest, h4]
      rfl
    rw [if_neg h4]
    by_cases h5 : c = '\r'
    · rw [if_pos h5]
      simp only [List.cons_append, parseStr, List.append_eq, List.nil_append]
      rw [ih rest, h5]
      rfl
    rw [if_neg h5]
    by_cases h6 : c = '\x08'
    · rw [if_pos h6]
      simp only [List.cons_append, parseStr, List.append_eq, List.nil_append]
      rw [ih rest, h6]
      rfl
    rw [if_neg h6]
    by_cases h7 : c = '\x0c'
    · rw [if_pos h7]
      simp only [List.cons_append, parseStr, List.append_eq, List.nil_append]
      rw [ih rest, h7]
      rfl
    rw [if_neg h7]
    by_cases h8 : c.toNat < 32
    · rw [if_pos h8]
      simp only [List.cons_append, parseStr, List.append_eq, List.nil_append]
      rw [hexVal_hexDigitChar (c.toNat / 16) (by omega),
        hexVal_hexDigitChar (c.toNat % 16) (by omega)]
      simp only [show hexVal ('0') = some 0 from rfl]
      rw [ih rest]
      have harith : ((0 * 16 + 0) * 16 + c.toNat / 16) * 16 + c.toNat % 16 = c.toNat := by
        omega
      simp only [harith, Char.ofNat_toNat]
      rfl
    · rw [if_neg h8]
      simp only [List.singleton_append]
      rw [parseStr_cons_other c _ h1 h2, ih rest]
      rfl

theorem numTail_headNotDigit (l : List Char) (h : numTail l = true) :
    headNotDigit l = true := by
  cases l with
  | nil => rfl
  | cons c r =>
    unfold numTail at h
    unfold headNotDigit
    simp only [Bool.and_eq_true] at h
    exact h.1.1.1

theorem parseExpPart_noExp (m : Int) (e : Nat) (rest : List Char)
    (h : numTail rest = true) : parseExpPart m e rest = some (⟨m, e⟩, rest) := by
  cases rest with
  | nil => rfl
  | cons c r =>
    unfold numTail at h
    simp only [Bool.and_eq_true, Bool.not_eq_true', decide_eq_false_iff_not] at h
    rw [parseExpPart.eq_def]
    split <;> simp_all

theorem parseNumMag_decBody (d : Dec) (neg : Bool) (rest : List Char)
    (hrest : numTail rest = true) :
    parseNumMag neg (decBody d ++ rest) = some (⟨applySign neg d.m.natAbs, d.e⟩, rest) := by
  by_cases he : d.e = 0
  · have hb : decBody d = decPadded d := by simp [decBody, he]
    rw [hb]
    have h1 : takeDigits (decPadded d ++ rest) = (decPadded d, rest) :=
      takeDigits_append _ rest (decPadded_digits d) (numTail_headNotDigit rest hrest)
    simp only [parseNumMag, h1]
    rw [if_neg (decPadded_ne_nil d)]
    cases rest with
    | nil =>
      simp only [parseExpPart, decPadded_val, he]
    | cons c r =>
      have hc : numTail (c :: r) = true := hrest
      unfold numTail at hc
      simp only [Bool.and_eq_true, Bool.not_eq_true', decide_eq_false_iff_not] at hc
      split
      · rename_i heq
        injection heq with hch _
        exact absurd hch hc.1.1.2
      · rw [parseExpPart_noExp _ _ _ hrest, decPadded_val, he]
  · have hb : decBody d = (decPadded d).take ((decPadded d).length - d.e) ++
        '.' :: (decPadded d).drop ((decPadded d).length - d.e) := by
      simp [decBody, he]
    have hlen := decPadded_len d
    rw [hb, List.append_assoc, List.cons_append]
    have h1 : takeDigits ((decPadded d).take ((decPadded d).length - d.e) ++
        ('.' :: ((decPadded d).drop ((decPadded d).length - d.e) ++ rest))) =
        ((decPadded d).take ((decPadded d).length - d.e),
          '.' :: ((decPadded d).drop ((decPadded d).length - d.e) ++ rest)) := by
      apply takeDigits_append
      · intro c hc
        exact decPadded_digits d c (List.take_subset _ _ hc)
      · rfl
    simp only [parseNumMag, h1]
    have hne : ¬ (decPadded d).take ((decPadded d).length - d.e) = [] := by
      intro h0
      have := congrArg List.length h0
      simp only [List.length_take, List.length_nil] at this
      omega
    rw [if_neg hne]
    have h2 : takeDigits ((decPadded d).drop ((decPadded d).length - d.e) ++ rest) =
        ((decPadded d).drop ((decPadded d).length - d.e), rest) := by
      apply takeDigits_append
      · intro c hc
        exact decPadded_digits d c (List.drop_subset _ _ hc)
      · exact numTail_headNotDigit rest hrest
    simp only [h2]
    have hne2 : ¬ (decPadded d).drop ((decPadded d).length - d.e) = [] := by
      intro h0
      have := congrArg List.length h0
      simp only [List.length_drop, List.length_nil] at this
      omega
    rw [if_neg hne2]
    have hdl : ((decPadded d).drop ((decPadded d).length - d.e)).length = d.e := by
      rw [List.length_drop]
      omega
    rw [List.take_append_drop, decPadded_val, hdl, parseExpPart_noExp _ _ _ hrest]

theorem parseNumCore_cons_not_neg (c : Char) (l : List Char) (h : ¬ c = '-') :
    parseNumCore (c :: l) = parseNumMag false (c :: l) := by
  rw [parseNumCore.eq_def]
  split <;> simp_all

theorem parseNumCore_decRender (d : Dec) (rest : List Char)
    (hrest : numTail rest = true) :
    parseNumCore (decRender d ++ rest) = some (d, rest) := by
  unfold decRender
  by_cases hm : d.m < 0
  · rw [if_pos hm, List.cons_append]
    rw [show parseNumCore ('-' :: (decBody d ++ rest)) =
      parseNumMag true (decBody d ++ rest) from rfl]
    rw [parseNumMag_decBody d true rest hrest]
    have hs : applySign true d.m.natAbs = d.m := by
      unfold applySign
      rw [if_pos rfl]
      omega
    rw [hs]
  · rw [if_neg hm]
    obtain ⟨c, cs, hb, hdig⟩ := decBody_shape d
    rw [hb, List.cons_append,
      parseNumCore_cons_not_neg c _ (digit_ne c '-' hdig (by decide)),
      ← List.cons_append, ← hb]
    rw [parseNumMag_decBody d false rest hrest]
    have hs : applySign false d.m.natAbs = d.m := by
      unfold applySign
      rw [if_neg (by decide)]
      omega
    rw [hs]

theorem skipWs_ws_renderV (ind : Nat) (v : Json) (u X : List Char)
    (hu : allWs u = true) :
    skipWs (u ++ (renderV ind v ++ X)) = renderV ind v ++ X := by
  rw [skipWs_append_allWs _ _ hu]
  obtain ⟨c, cs, hb, hws, _, _⟩ := renderV_shape ind v
  rw [hb, List.cons_append, skipWs_cons_neg c _ hws, ← List.cons_append, ← hb]

theorem allWs_nl_spaces (n : Nat) : allWs ('\n' :: spacesN n) = true := by
  unfold allWs
  rw [List.all_cons, show isWs '\n' = true from rfl, Bool.true_and]
  exact allWs_spacesN n

theorem skipWs_nl_spaces_renderV (n ind : Nat) (v : Json) (X : List Char) :
    skipWs ('\n' :: (spacesN n ++ (renderV ind v ++ X))) = renderV ind v ++ X := by
  rw [skipWs_cons_pos _ _ (by decide), skipWs_append_allWs _ _ (allWs_spacesN n)]
  have h := skipWs_ws_renderV ind v [] X rfl
  rwa [List.nil_append] at h

theorem escString_append (k : String) (X : List Char) :
    escString k ++ X = '"' :: (escContent k.data ++ ('"' :: X)) := by
  simp [escString]

theorem skipWs_nl_spaces_esc (n : Nat) (k : String) (X : List Char) :
    skipWs ('\n' :: (spacesN n ++ (escString k ++ X))) =
      '"' :: (escContent k.data ++ ('"' :: X)) := by
  rw [skipWs_cons_pos _ _ (by decide), skipWs_append_allWs _ _ (allWs_spacesN n),
    escString_append, skipWs_cons_neg _ _ (by decide)]

theorem rt_parse (fuel : Nat) :
    (∀ v ind u rest, allWs u = true → numTail rest = true → nfV v < fuel →
      pVal fuel (u ++ (renderV ind v ++ rest)) = some (v, rest)) ∧
    (∀ h t ind u w rest, allWs u = true → allWs w = true → nfI h t < fuel →
      pItems fuel (u ++ (renderV ind h ++ (renderItemsTail ind t ++
        ('\n' :: (w ++ (']' :: rest)))))) = some (JArr.cons h t, rest)) ∧
    (∀ k v t ind u w rest, allWs u = true → allWs w = true → nfM v t < fuel →
      pMembers fuel (u ++ (escString k ++ (':' :: ' ' :: (renderV ind v ++
        (renderMembersTail ind t ++ ('\n' :: (w ++ ('\x7d' :: rest)))))))) =
        some (JObj.cons k v t, rest)) := by
  induction fuel with
  | zero =>
    refine ⟨?_, ?_, ?_⟩
    · intro v _ _ _ _ _ hf
      exact absurd hf (by omega)
    · intro h t _ _ _ _ _ _ hf
      exact absurd hf (by omega)
    · intro k v t _ _ _ _ _ _ hf
      exact absurd hf (by omega)
  | succ fuel ih =>
    obtain ⟨ihV, ihI, ihM⟩ := ih
    refine ⟨?_, ?_, ?_⟩
    · intro v ind u rest hu hrest hf
      have hskip := skipWs_ws_renderV ind v u rest hu
      cases v with
      | null =>
        simp only [pVal]
        rw [hskip]
        simp only [renderV, List.cons_append, List.nil_append]
      | bool b =>
        cases b with
        | true =>
          simp only [pVal]
          rw [hskip]
          simp only [renderV, List.cons_append, List.nil_append]
        | false =>
          simp only [pVal]
          rw [hskip]
          simp only [renderV, List.cons_append, List.nil_append]
      | str s =>
        simp only [pVal]
        rw [hskip]
        simp only [renderV, escString, List.cons_append, List.append_assoc,
          List.singleton_append]
        rw [parseStr_escContent]
        rfl
      | num d =>
        obtain ⟨c, cs, hb, hd⟩ := decRender_shape d
        obtain ⟨h1, h2, h3, h4, h5, h6⟩ :
            (¬ c = 'n') ∧ (¬ c = 't') ∧ (¬ c = 'f') ∧ (¬ c = '"') ∧
              (¬ c = '\x7b') ∧ (¬ c = '[') := by
          rcases hd with h | h
          · subst h
            exact ⟨by decide, by decide, by decide, by decide, by decide, by decide⟩
          · exact ⟨digit_ne _ _ h (by decide), digit_ne _ _ h (by decide),
              digit_ne _ _ h (by decide), digit_ne _ _ h (by decide),
              digit_ne _ _ h (by decide), digit_ne _ _ h (by decide)⟩
        simp only [pVal]
        rw [hskip]
        simp only [renderV]
        rw [hb, List.cons_append]
        split <;> first
          | (rw [← List.cons_append, ← hb, parseNumCore_decRender d rest hrest]; rfl)
          | simp_all
      | arr a =>
        cases a with
        | nil =>
          simp only [pVal]
          rw [hskip]
          simp only [renderV, List.cons_append, List.nil_append]
          rw [skipWs_cons_neg ']' rest (by decide)]
          rfl
        | cons h t =>
          have hf' : nfI h t < fuel := by
            simp only [nfV] at hf
            omega
          simp only [pVal]
          rw [hskip]
          simp only [renderV, List.cons_append, List.append_assoc, List.nil_append,
            List.singleton_append]
          rw [skipWs_nl_spaces_renderV]
          obtain ⟨c, cs, hbh, hws, hnotr, hnotb⟩ := renderV_shape (ind + 1) h
          rw [hbh, List.cons_append]
          split
          · rename_i heq
            injection heq with hch _
            exact absurd hch hnotr
          · rw [← List.cons_append, ← hbh]
            have hI := ihI h t (ind + 1) [] (spacesN (2 * ind)) rest rfl
              (allWs_spacesN _) hf'
            rw [List.nil_append] at hI
            rw [hI]
            rfl
      | obj o =>
        cases o with
        | nil =>
          simp only [pVal]
          rw [hskip]
          simp only [renderV, List.cons_append, List.nil_append]
          rw [skipWs_cons_neg '\x7d' rest (by decide)]
          rfl
        | cons k v2 t =>
          have hf' : nfM v2 t < fuel := by
            simp only [nfV] at hf
            omega
          simp only [pVal]
          rw [hskip]
          simp only [renderV, List.cons_append, List.append_assoc, List.nil_append,
            List.singleton_append]
          rw [skipWs_nl_spaces_esc]
          split
          · rename_i heq
            injection heq with hch _
            exact absurd hch (by decide)
          · rw [← escString_append]
            have hM := ihM k v2 t (ind + 1) [] (spacesN (2 * ind)) rest rfl
              (allWs_spacesN _) hf'
            rw [List.nil_append] at hM
            rw [hM]
            rfl
    · intro h t ind u w rest hu hw hf
      have hfV : nfV h < fuel := by
        cases t <;> simp only [nfI] at hf <;> omega
      have hnt : numTail (renderItemsTail ind t ++ ('\n' :: (w ++ (']' :: rest)))) =
          true := by
        cases t <;> rfl
      have h1 := ihV h ind u (renderItemsTail ind t ++ ('\n' :: (w ++ (']' :: rest))))
        hu hnt hfV
      simp only [pItems]
      rw [h1]
      cases t with
      | nil =>
        have hsk : skipWs (renderItemsTail ind JArr.nil ++
            ('\n' :: (w ++ (']' :: rest)))) = ']' :: rest := by
          simp only [renderItemsTail, List.nil_append]
          rw [skipWs_cons_pos _ _ (by decide), skipWs_append_allWs _ _ hw,
            skipWs_cons_neg _ _ (by decide)]
        simp only [hsk]
      | cons h2 t2 =>
        have hf2 : nfI h2 t2 < fuel := by
          simp only [nfI] at hf
          omega
        have hsk : skipWs (renderItemsTail ind (JArr.cons h2 t2) ++
            ('\n' :: (w ++ (']' :: rest)))) =
            ',' :: ('\n' :: (spacesN (2 * ind) ++ (renderV ind h2 ++
              (renderItemsTail ind t2 ++ ('\n' :: (w ++ (']' :: rest))))))) := by
          simp only [renderItemsTail, List.cons_append, List.append_assoc]
          rw [skipWs_cons_neg _ _ (by decide)]
        simp only [hsk]
        have hI := ihI h2 t2 ind ('\n' :: spacesN (2 * ind)) w rest
          (allWs_nl_spaces _) hw hf2
        rw [List.cons_append] at hI
        rw [hI]
        rfl
    · intro k v t ind u w rest hu hw hf
      have hfV : nfV v < fuel := by
        cases t <;> simp only [nfM] at hf <;> omega
      simp only [pMembers]
      have hsk : skipWs (u ++ (escString k ++ (':' :: ' ' :: (renderV ind v ++
          (renderMembersTail ind t ++ ('\n' :: (w ++ ('\x7d' :: rest)))))))) =
          '"' :: (escContent k.data ++ ('"' :: (':' :: ' ' :: (renderV ind v ++
            (renderMembersTail ind t ++ ('\n' :: (w ++ ('\x7d' :: rest)))))))) := by
        rw [skipWs_append_allWs _ _ hu, escString_append,
          skipWs_cons_neg _ _ (by decide)]
      have hc1 : skipWs (':' :: ' ' :: (renderV ind v ++ (renderMembersTail ind t ++
          ('\n' :: (w ++ ('\x7d' :: rest)))))) =
          ':' :: ' ' :: (renderV ind v ++ (renderMembersTail ind t ++
            ('\n' :: (w ++ ('\x7d' :: rest))))) :=
        skipWs_cons_neg _ _ (by decide)
      have hnt : numTail (renderMembersTail ind t ++ ('\n' :: (w ++ ('\x7d' :: rest)))) =
          true := by
        cases t <;> rfl
      have h1 := ihV v ind [' ']
        (renderMembersTail ind t ++ ('\n' :: (w ++ ('\x7d' :: rest)))) rfl hnt hfV
      rw [List.cons_append, List.nil_append] at h1
      simp only [hsk, parseStr_escContent, hc1, h1]
      cases t with
      | nil =>
        have hsk2 : skipWs (renderMembersTail ind JObj.nil ++
            ('\n' :: (w ++ ('\x7d' :: rest)))) = '\x7d' :: rest := by
          simp only [renderMembersTail, List.nil_append]
          rw [skipWs_cons_pos _ _ (by decide), skipWs_append_allWs _ _ hw,
            skipWs_cons_neg _ _ (by decide)]
        simp only [hsk2]
      | cons k2 v2 t2 =>
        have hf2 : nfM v2 t2 < fuel := by
          simp only [nfM] at hf
          omega
        have hsk2 : skipWs (renderMembersTail ind (JObj.cons k2 v2 t2) ++
            ('\n' :: (w ++ ('\x7d' :: rest)))) =
            ',' :: ('\n' :: (spacesN (2 * ind) ++ (escString k2 ++ (':' :: ' ' ::
              (renderV ind v2 ++ (renderMembersTail ind t2 ++
                ('\n' :: (w ++ ('\x7d' :: rest))))))))) := by
          simp only [renderMembersTail, List.cons_append, List.append_assoc]
          rw [skipWs_cons_neg _ _ (by decide)]
        simp only [hsk2]
        have hM := ihM k2 v2 t2 ind ('\n' :: spacesN (2 * ind)) w rest
          (allWs_nl_spaces _) hw hf2
        rw [List.cons_append] at hM
        rw [hM]
        rfl

theorem spacesN_length (n : Nat) : (spacesN n).length = n := by
  simp [spacesN]

theorem nf_le_len : ∀ n : Nat,
    (∀ v : Json, sizeOf v ≤ n → ∀ ind, nfV v ≤ (renderV ind v).length) ∧
    (∀ (h : Json) (t : JArr), sizeOf h + sizeOf t ≤ n → ∀ ind,
      nfI h t ≤ (renderV ind h).length + (renderItemsTail ind t).length + 1) ∧
    (∀ (v : Json) (t : JObj), sizeOf v + sizeOf t ≤ n → ∀ ind,
      nfM v t ≤ (renderV ind v).length + (renderMembersTail ind t).length + 1) := by
  intro n
  induction n with
  | zero =>
    refine ⟨?_, ?_, ?_⟩
    · intro v hv
      exfalso
      cases v <;> simp at hv
    · intro h t hv
      exfalso
      cases h <;> simp at hv
    · intro v t hv
      exfalso
      cases v <;> simp at hv
  | succ n ihn =>
    obtain ⟨iV, iI, iM⟩ := ihn
    refine ⟨?_, ?_, ?_⟩
    · intro v hv ind
      cases v with
      | null => simp [nfV, renderV]
      | bool b => cases b <;> simp [nfV, renderV]
      | num d =>
        simp only [nfV, renderV]
        exact List.length_pos.mpr (decRender_ne_nil d)
      | str s =>
        simp only [nfV, renderV, escString]
        simp
      | arr a =>
        cases a with
        | nil => simp [nfV, renderV]
        | cons h t =>
          simp only [Json.arr.sizeOf_spec, JArr.cons.sizeOf_spec] at hv
          have hle := iI h t (by omega) (ind + 1)
          simp only [nfV, renderV, List.length_cons, List.length_append,
            spacesN_length, List.length_singleton]
          omega
      | obj o =>
        cases o with
        | nil => simp [nfV, renderV]
        | cons k v2 t =>
          simp only [Json.obj.sizeOf_spec, JObj.cons.sizeOf_spec] at hv
          have hle := iM v2 t (by omega) (ind + 1)
          simp only [nfV, renderV, List.length_cons, List.length_append,
            spacesN_length, List.length_singleton]
          omega
    · intro h t hv ind
      cases t with
      | nil =>
        simp only [JArr.nil.sizeOf_spec] at hv
        have hle := iV h (by omega) ind
        simp only [nfI, renderItemsTail, List.length_nil]
        omega
      | cons h2 t2 =>
        simp only [JArr.cons.sizeOf_spec] at hv
        have hle1 := iV h (by omega) ind
        have hle2 := iI h2 t2 (by omega) ind
        simp only [nfI, renderItemsTail, List.length_cons, List.length_append,
          spacesN_length]
        omega
    · intro v t hv ind
      cases t with
      | nil =>
        simp only [JObj.nil.sizeOf_spec] at hv
        have hle := iV v (by omega) ind
        simp only [nfM, renderMembersTail, List.length_nil]
        omega
      | cons k2 v2 t2 =>
        simp only [JObj.cons.sizeOf_spec] at hv
        have hle1 := iV v (by omega) ind
        have hle2 := iM v2 t2 (by omega) ind
        simp only [nfM, renderMembersTail, List.length_cons, List.length_append,
          spacesN_length]
        omega

theorem nfV_le (v : Json) (ind : Nat) : nfV v ≤ (renderV ind v).length :=
  (nf_le_len (sizeOf v)).1 v (le_refl _) ind

theorem jsonParse_render (v : Json) : jsonParse (renderJson v) = some v := by
  unfold jsonParse renderJson
  have h := (rt_parse (2 * (renderV 0 v).length + 2)).1 v 0 [] [] rfl rfl
    (by have := nfV_le v 0; omega)
  rw [List.nil_append, List.append_nil] at h
  rw [h]
  rfl

theorem dropWhile_append_of_all (p : Char → Bool) (a l : List Char)
    (ha : ∀ c ∈ a, p c = true) : List.dropWhile p (a ++ l) = List.dropWhile p l := by
  induction a with
  | nil => rfl
  | cons c t ih =>
    rw [List.cons_append, List.dropWhile_cons, if_pos (ha c (List.mem_cons_self c t))]
    exact ih (fun x hx => ha x (List.mem_cons_of_mem c hx))

theorem extractJsonBlock_header (hdr mid : List Char) (hhdr : noBraceL hdr) :
    extractJsonBlock (hdr ++ ('\x7b' :: mid ++ ['\x7d'])) = '\x7b' :: mid ++ ['\x7d'] := by
  have ha : ∀ c ∈ hdr, (fun c => decide (¬ c = '\x7b')) c = true := by
    intro c hc
    simpa using hhdr c hc
  have h1 : List.dropWhile (fun c => decide (¬ c = '\x7b'))
      (hdr ++ ('\x7b' :: mid ++ ['\x7d'])) = '\x7b' :: mid ++ ['\x7d'] := by
    rw [dropWhile_append_of_all _ hdr _ ha, List.cons_append, List.dropWhile_cons]
    simp
  have h2 : ('\x7b' :: mid ++ ['\x7d']).reverse = '\x7d' :: ('\x7b' :: mid).reverse := by
    simp
  simp only [extractJsonBlock, h1, h2, List.dropWhile_cons]
  simp

theorem noBraceL_append (a b : List Char) (ha : noBraceL a) (hb : noBraceL b) :
    noBraceL (a ++ b) := by
  intro c hc
  rcases List.mem_append.mp hc with h | h
  · exact ha c h
  · exact hb c h

theorem noBraceL_digits (l : List Char) (hd : ∀ c ∈ l, isDigitCh c = true) :
    noBraceL l := fun c hc => digit_ne c _ (hd c hc) (by decide)

theorem noBraceL_decBody (d : Dec) : noBraceL (decBody d) := by
  intro c hc
  simp only [decBody] at hc
  split at hc
  · exact digit_ne c _ (decPadded_digits d c hc) (by decide)
  · rcases List.mem_append.mp hc with h | h
    · exact digit_ne c _ (decPadded_digits d c (List.take_subset _ _ h)) (by decide)
    · rcases List.mem_cons.mp h with h | h
      · rw [h]
        decide
      · exact digit_ne c _ (decPadded_digits d c (List.drop_subset _ _ h)) (by decide)

theorem noBraceL_decRender (d : Dec) : noBraceL (decRender d) := by
  intro c hc
  unfold decRender at hc
  split at hc
  · rcases List.mem_cons.mp hc with h | h
    · rw [h]
      decide
    · exact noBraceL_decBody d c h
  · exact noBraceL_decBody d c hc

theorem isYMD_chars (s : String) (h : isYMD s = true) :
    ∀ c ∈ s.data, isDigitCh c = true ∨ c = '-' := by
  unfold isYMD at h
  split at h
  · rename_i y1 y2 y3 y4 s1 m1 m2 s2 d1 d2 heq
    intro c hc
    rw [heq] at hc
    simp only [Bool.and_eq_true, decide_eq_true_eq] at h
    obtain ⟨⟨⟨⟨⟨⟨⟨⟨⟨hy1, hy2⟩, hy3⟩, hy4⟩, hs1⟩, hm1⟩, hm2⟩, hs2⟩, hd1⟩, hd2⟩ := h
    simp only [List.mem_cons, List.not_mem_nil, or_false] at hc
    rcases hc with rfl | rfl | rfl | rfl | rfl | rfl | rfl | rfl | rfl | rfl
    · exact Or.inl hy1
    · exact Or.inl hy2
    · exact Or.inl hy3
    · exact Or.inl hy4
    · exact Or.inr hs1
    · exact Or.inl hm1
    · exact Or.inl hm2
    · exact Or.inr hs2
    · exact Or.inl hd1
    · exact Or.inl hd2
  · cases h

theorem isYMD_noBrace (s : String) (h : isYMD s = true) : noBraceL s.data := by
  intro c hc
  rcases isYMD_chars s h c hc with hd | hd
  · exact digit_ne c _ hd (by decide)
  · rw [hd]
    decide

theorem isYMD_ne_empty (s : String) (h : isYMD s = true) : ¬ s = "" := by
  intro he
  rw [he] at h
  exact absurd h (by decide)

theorem headerChars_noBrace (h : Hike) (n : Nat)
    (hname : noBraceL h.name.data) (hloc : noBraceL h.location.data)
    (hdesc : noBraceL ((h.description.getD "").data))
    (hdate : isYMD h.date = true)
    (hdiff : h.difficulty = "Easy" ∨ h.difficulty = "Moderate" ∨ h.difficulty = "Hard") :
    noBraceL (headerChars h n) := by
  have hdif : noBraceL h.difficulty.data := by
    rcases hdiff with hD | hD | hD <;> rw [hD]
    · decide
    · decide
    · decide
  intro c hc
  unfold headerChars at hc
  simp only [List.mem_append, or_assoc] at hc
  rcases hc with h1 | h1 | h1 | h1 | h1 | h1 | h1 | h1 | h1 | h1 | h1 | h1 | h1 |
    h1 | h1 | h1 | h1 | h1 | h1
  · exact (by decide : noBraceL ("=== Hike Export ===\nName: ").data) c h1
  · exact hname c h1
  · exact (by decide : noBraceL ("\nLocation: ").data) c h1
  · exact hloc c h1
  · exact (by decide : noBraceL ("\nDate: ").data) c h1
  · exact isYMD_noBrace h.date hdate c h1
  · exact (by decide : noBraceL ("\nLength: ").data) c h1
  · exact noBraceL_decRender h.lengthKm c h1
  · exact (by decide : noBraceL (" km\nDifficulty: ").data) c h1
  · exact hdif c h1
  · exact (by decide : noBraceL ("\nParking: ").data) c h1
  · split at h1
    · exact (by decide : noBraceL ("Available").data) c h1
    · exact (by decide : noBraceL ("Unavailable").data) c h1
  · exact (by decide : noBraceL ("\n").data) c h1
  · cases hE : h.elevationGainM with
    | none =>
      rw [hE] at h1
      replace h1 : c ∈ ([] : List Char) := h1
      simp at h1
    | some d =>
      rw [hE] at h1
      replace h1 : c ∈ (if d.isZero = true then ([] : List Char) else
        ("Elevation Gain: ").data ++ decRender d ++ (" m\n").data) := h1
      split at h1
      · simp at h1
      · rcases List.mem_append.mp h1 with h2 | h2
        · rcases List.mem_append.mp h2 with h3 | h3
          · exact (by decide : noBraceL ("Elevation Gain: ").data) c h3
          · exact noBraceL_decRender d c h3
        · exact (by decide : noBraceL (" m\n").data) c h2
  · cases hE : h.rating with
    | none =>
      rw [hE] at h1
      replace h1 : c ∈ ([] : List Char) := h1
      simp at h1
    | some d =>
      rw [hE] at h1
      replace h1 : c ∈ (if d.isZero = true then ([] : List Char) else
        ("Rating: ").data ++ decRender d ++ ("/5\n").data) := h1
      split at h1
      · simp at h1
      · rcases List.mem_append.mp h1 with h2 | h2
        · rcases List.mem_append.mp h2 with h3 | h3
          · exact (by decide : noBraceL ("Rating: ").data) c h3
          · exact noBraceL_decRender d c h3
        · exact (by decide : noBraceL ("/5\n").data) c h2
  · cases hE : h.description with
    | none =>
      rw [hE] at h1
      replace h1 : c ∈ ([] : List Char) := h1
      simp at h1
    | some s =>
      rw [hE] at h1
      replace h1 : c ∈ (if s = "" then ([] : List Char) else
        ("Description: ").data ++ s.data ++ ("\n").data) := h1
      split at h1
      · simp at h1
      · rcases List.mem_append.mp h1 with h2 | h2
        · rcases List.mem_append.mp h2 with h3 | h3
          · exact (by decide : noBraceL ("Description: ").data) c h3
          · have hs : noBraceL s.data := by
              rw [hE] at hdesc
              exact hdesc
            exact hs c h3
        · exact (by decide : noBraceL ("\n").data) c h2
  · exact (by decide : noBraceL ("\n").data) c h1
  · split at h1
    · rcases List.mem_append.mp h1 with h2 | h2
      · rcases List.mem_append.mp h2 with h3 | h3
        · exact (by decide : noBraceL ("Observations: ").data) c h3
        · exact noBraceL_digits _ (natDigits_all n) c h3
      · exact (by decide : noBraceL ("\n").data) c h2
    · simp at h1
  · exact (by decide : noBraceL ("\n=== JSON Data (for import) ===\n").data) c h1

theorem jLookup_jObjOf (l : List (String × Json)) (k : String) :
    jLookup (jObjOf l) k = listLookupLast l k := by
  induction l with
  | nil => rfl
  | cons p t ih => simp only [jObjOf, jLookup, listLookupLast, ih]

theorem listLookupLast_append (a b : List (String × Json)) (k : String) :
    listLookupLast (a ++ b) k =
      match listLookupLast b k with
      | some r => some r
      | none => listLookupLast a k := by
  induction a with
  | nil =>
    rw [List.nil_append]
    cases hb : listLookupLast b k <;> rfl
  | cons p t ih =>
    rw [List.cons_append]
    simp only [listLookupLast, ih]
    cases listLookupLast b k <;> cases listLookupLast t k <;> rfl

theorem llast_optField_ne (key k : String) (x : Option Json) (h : ¬ key = k) :
    listLookupLast (optField key x) k = none := by
  cases x <;> simp [optField, listLookupLast, h]

theorem llast_optField_eq (key : String) (x : Option Json) :
    listLookupLast (optField key x) key = x := by
  cases x <;> simp [optField, listLookupLast]

theorem llast_append_opt_ne (a : List (String × Json)) (key k : String)
    (x : Option Json) (h : ¬ key = k) :
    listLookupLast (a ++ optField key x) k = listLookupLast a k := by
  rw [listLookupLast_append, llast_optField_ne key k x h]

theorem jget_export_name (e : HikeExportFormat) :
    jGet (exportFormatJson e) ("name") = some (.str e.name) := by
  show jLookup (jObjOf _) _ = _
  rw [jLookup_jObjOf,
    llast_append_opt_ne _ _ _ _ (by decide), llast_append_opt_ne _ _ _ _ (by decide),
    llast_append_opt_ne _ _ _ _ (by decide), llast_append_opt_ne _ _ _ _ (by decide),
    llast_append_opt_ne _ _ _ _ (by decide), llast_append_opt_ne _ _ _ _ (by decide)]
  rfl

theorem jget_export_location (e : HikeExportFormat) :
    jGet (exportFormatJson e) ("location") = some (.str e.location) := by
  show jLookup (jObjOf _) _ = _
  rw [jLookup_jObjOf,
    llast_append_opt_ne _ _ _ _ (by decide), llast_append_opt_ne _ _ _ _ (by decide),
    llast_append_opt_ne _ _ _ _ (by decide), llast_append_opt_ne _ _ _ _ (by decide),
    llast_append_opt_ne _ _ _ _ (by decide), llast_append_opt_ne _ _ _ _ (by decide)]
  rfl

theorem jget_export_date (e : HikeExportFormat) :
    jGet (exportFormatJson e) ("date") = some (.str e.date) := by
  show jLookup (jObjOf _) _ = _
  rw [jLookup_jObjOf,
    llast_append_opt_ne _ _ _ _ (by decide), llast_append_opt_ne _ _ _ _ (by decide),
    llast_append_opt_ne _ _ _ _ (by decide), llast_append_opt_ne _ _ _ _ (by decide),
    llast_append_opt_ne _ _ _ _ (by decide), llast_append_opt_ne _ _ _ _ (by decide)]
  rfl

theorem jget_export_parking (e : HikeExportFormat) :
    jGet (exportFormatJson e) ("parkingAvailable") = some (.bool e.parkingAvailable) := by
  show jLookup (jObjOf _) _ = _
  rw [jLookup_jObjOf,
    llast_append_opt_ne _ _ _ _ (by decide), llast_append_opt_ne _ _ _ _ (by decide),
    llast_append_opt_ne _ _ _ _ (by decide), llast_append_opt_ne _ _ _ _ (by decide),
    llast_append_opt_ne _ _ _ _ (by decide), llast_append_opt_ne _ _ _ _ (by decide)]
  rfl

theorem jget_export_lengthKm (e : HikeExportFormat) :
    jGet (exportFormatJson e) ("lengthKm") = some (.num e.lengthKm) := by
  show jLookup (jObjOf _) _ = _
  rw [jLookup_jObjOf,
    llast_append_opt_ne _ _ _ _ (by decide), llast_append_opt_ne _ _ _ _ (by decide),
    llast_append_opt_ne _ _ _ _ (by decide), llast_append_opt_ne _ _ _ _ (by decide),
    llast_append_opt_ne _ _ _ _ (by decide), llast_append_opt_ne _ _ _ _ (by decide)]
  rfl

theorem jget_export_difficulty (e : HikeExportFormat) :
    jGet (exportFormatJson e) ("difficulty") = some (.str e.difficulty) := by
  show jLookup (jObjOf _) _ = _
  rw [jLookup_jObjOf,
    llast_append_opt_ne _ _ _ _ (by decide), llast_append_opt_ne _ _ _ _ (by decide),
    llast_append_opt_ne _ _ _ _ (by decide), llast_append_opt_ne _ _ _ _ (by decide),
    llast_append_opt_ne _ _ _ _ (by decide), llast_append_opt_ne _ _ _ _ (by decide)]
  rfl

theorem jget_export_description (e : HikeExportFormat) :
    jGet (exportFormatJson e) ("description") = e.description.map .str := by
  show jLookup (jObjOf _) _ = _
  rw [jLookup_jObjOf,
    llast_append_opt_ne _ _ _ _ (by decide), llast_append_opt_ne _ _ _ _ (by decide),
    llast_append_opt_ne _ _ _ _ (by decide), llast_append_opt_ne _ _ _ _ (by decide),
    llast_append_opt_ne _ _ _ _ (by decide), listLookupLast_append, llast_optField_eq]
  cases e.description <;> rfl

theorem jget_export_elevation (e : HikeExportFormat) :
    jGet (exportFormatJson e) ("elevationGainM") = e.elevationGainM.map .num := by
  show jLookup (jObjOf _) _ = _
  rw [jLookup_jObjOf,
    llast_append_opt_ne _ _ _ _ (by decide), llast_append_opt_ne _ _ _ _ (by decide),
    llast_append_opt_ne _ _ _ _ (by decide), llast_append_opt_ne _ _ _ _ (by decide),
    listLookupLast_append, llast_optField_eq]
  cases e.elevationGainM with
  | some v => rfl
  | none =>
    simp only [Option.map_none']
    rw [llast_append_opt_ne _ _ _ _ (by decide)]
    rfl

theorem jget_export_rating (e : HikeExportFormat) :
    jGet (exportFormatJson e) ("rating") = e.rating.map .num := by
  show jLookup (jObjOf _) _ = _
  rw [jLookup_jObjOf,
    llast_append_opt_ne _ _ _ _ (by decide), llast_append_opt_ne _ _ _ _ (by decide),
    llast_append_opt_ne _ _ _ _ (by decide), listLookupLast_append, llast_optField_eq]
  cases e.rating with
  | some v => rfl
  | none =>
    simp only [Option.map_none']
    rw [llast_append_opt_ne _ _ _ _ (by decide), llast_append_opt_ne _ _ _ _ (by decide)]
    rfl

theorem jget_export_latitude (e : HikeExportFormat) :
    jGet (exportFormatJson e) ("latitude") = e.latitude.map .num := by
  show jLookup (jObjOf _) _ = _
  rw [jLookup_jObjOf,
    llast_append_opt_ne _ _ _ _ (by decide), llast_append_opt_ne _ _ _ _ (by decide),
    listLookupLast_append, llast_optField_eq]
  cases e.latitude with
  | some v => rfl
  | none =>
    simp only [Option.map_none']
    rw [llast_append_opt_ne _ _ _ _ (by decide), llast_append_opt_ne _ _ _ _ (by decide),
      llast_append_opt_ne _ _ _ _ (by decide)]
    rfl

theorem jget_export_longitude (e : HikeExportFormat) :
    jGet (exportFormatJson e) ("longitude") = e.longitude.map .num := by
  show jLookup (jObjOf _) _ = _
  rw [jLookup_jObjOf, llast_append_opt_ne _ _ _ _ (by decide),
    listLookupLast_append, llast_optField_eq]
  cases e.longitude with
  | some v => rfl
  | none =>
    simp only [Option.map_none']
    rw [llast_append_opt_ne _ _ _ _ (by decide), llast_append_opt_ne _ _ _ _ (by decide),
      llast_append_opt_ne _ _ _ _ (by decide), llast_append_opt_ne _ _ _ _ (by decide)]
    rfl

theorem jget_export_observations (e : HikeExportFormat) :
    jGet (exportFormatJson e) ("observations") =
      e.observations.map (fun l => .arr (jArrOf (l.map obsExportJson))) := by
  show jLookup (jObjOf _) _ = _
  rw [jLookup_jObjOf, listLookupLast_append, llast_optField_eq]
  cases e.observations with
  | some v => rfl
  | none =>
    simp only [Option.map_none']
    rw [llast_append_opt_ne _ _ _ _ (by decide), llast_append_opt_ne _ _ _ _ (by decide),
      llast_append_opt_ne _ _ _ _ (by decide), llast_append_opt_ne _ _ _ _ (by decide),
      llast_append_opt_ne _ _ _ _ (by decide)]
    rfl

theorem jObsExport_obsExportJson (o : ObsExport) : jObsExport (obsExportJson o) = o := by
  obtain ⟨ob, ts, cm⟩ := o
  cases cm <;> rfl

theorem jArrToList_jArrOf (l : List Json) : jArrToList (jArrOf l) = l := by
  induction l with
  | nil => rfl
  | cons v t ih => simp [jArrOf, jArrToList, ih]

theorem jStrOpt_map (x : Option String) : jStrOpt (x.map .str) = x := by
  cases x <;> rfl

theorem jNumOpt_map (x : Option Dec) : jNumOpt (x.map .num) = x := by
  cases x <;> rfl

theorem jObsListOpt_map (x : Option (List ObsExport)) :
    jObsListOpt (x.map (fun l => .arr (jArrOf (l.map obsExportJson)))) = x := by
  cases x with
  | none => rfl
  | some l =>
    simp only [Option.map, jObsListOpt, jArrToList_jArrOf, List.map_map]
    have : (jObsExport ∘ obsExportJson) = id := by
      funext o
      exact jObsExport_obsExportJson o
    rw [this, List.map_id]

theorem jsonToExportFormat_export (e : HikeExportFormat) :
    jsonToExportFormat (exportFormatJson e) = e := by
  unfold jsonToExportFormat
  rw [jget_export_name, jget_export_location, jget_export_date, jget_export_parking,
    jget_export_lengthKm, jget_export_difficulty, jget_export_description,
    jget_export_elevation, jget_export_rating, jget_export_latitude,
    jget_export_longitude, jget_export_observations]
  rw [jStrOpt_map, jNumOpt_map, jNumOpt_map, jNumOpt_map, jNumOpt_map, jObsListOpt_map]
  rfl

theorem requiredFieldMissing_export (e : HikeExportFormat)
    (hn : ¬ e.name = "") (hl : ¬ e.location = "") (hd : ¬ e.date = "")
    (hk : ¬ e.lengthKm.m = 0) (hdf : ¬ e.difficulty = "") :
    requiredFieldMissing (exportFormatJson e) = false := by
  unfold requiredFieldMissing
  rw [jget_export_name, jget_export_location, jget_export_date, jget_export_parking,
    jget_export_lengthKm, jget_export_difficulty]
  simp [jsTruthy, Dec.isZero, hn, hl, hd, hk, hdf]

theorem renderJson_obj_shape (k : String) (v : Json) (t : JObj) :
    ∃ mid, renderJson (.obj (.cons k v t)) = '\x7b' :: mid ++ ['\x7d'] := by
  refine ⟨'\n' :: spacesN 2 ++ escString k ++ ':' :: ' ' :: renderV 1 v ++
    renderMembersTail 1 t ++ '\n' :: spacesN 0, ?_⟩
  show renderV 0 _ = _
  simp [renderV, List.append_assoc]

theorem exportFormatJson_shape (e : HikeExportFormat) :
    ∃ rest, exportFormatJson e = .obj (.cons ("name") (.str e.name) rest) := ⟨_, rfl⟩

theorem isValidDate_isYMD (s : String) (h : isValidDate s = true) : isYMD s = true := by
  unfold isValidDate at h
  unfold isYMD
  split at h
  · rename_i y1 y2 y3 y4 s1 m1 m2 s2 d1 d2 heq
    rw [Bool.and_eq_true] at h
    exact h.1
  · cases h

theorem parseImportJson_export (h : Hike) (st : Store)
    (hv : HikeValid h) (hn : noBraceL h.name.data) (hl : noBraceL h.location.data)
    (hd : noBraceL ((h.description.getD "").data)) :
    parseImportJson (exportHikeToJson h st) =
      .ok (exportFormatJson
        (hikeToExportFormat h (getObservationsByHikeId (h.id.getD 0) st))) := by
  unfold HikeValid hikeValidB at hv
  simp only [Bool.and_eq_true, Bool.not_eq_true', Bool.or_eq_true,
    decide_eq_true_eq, decide_eq_false_iff_not] at hv
  obtain ⟨⟨⟨⟨⟨⟨⟨hg1, hg2⟩, hg3⟩, hg4⟩, hg5⟩, _⟩, _⟩, _⟩ := hv
  have hnme : ¬ h.name = "" := hg1.1.1
  have hlocne : ¬ h.location = "" := hg2.1.1
  have hdatene : ¬ h.date = "" := hg3.1.1
  have hymd : isYMD h.date = true := isValidDate_isYMD h.date hg3.2
  have hdiff3 := hg5.2
  have hdiff3r : h.difficulty = "Easy" ∨ h.difficulty = "Moderate" ∨
      h.difficulty = "Hard" := by
    rcases hdiff3 with (hD | hD) | hD
    · exact Or.inl hD
    · exact Or.inr (Or.inl hD)
    · exact Or.inr (Or.inr hD)
  have hdiffne : ¬ h.difficulty = "" := by
    rcases hdiff3r with hD | hD | hD <;> rw [hD] <;> decide
  have hkmpos : 0 < h.lengthKm.m := by
    have hkm0 := hg4.1
    simp only [Dec.numLe, pow_zero, mul_one, zero_mul, not_le] at hkm0
    exact hkm0
  have hkmne : ¬ h.lengthKm.m = 0 := by omega
  obtain ⟨restO, hobjE⟩ :=
    exportFormatJson_shape (hikeToExportFormat h (getObservationsByHikeId (h.id.getD 0) st))
  obtain ⟨mid, hmid⟩ := renderJson_obj_shape ("name")
    (.str (hikeToExportFormat h (getObservationsByHikeId (h.id.getD 0) st)).name) restO
  have hrender : renderJson (exportFormatJson
      (hikeToExportFormat h (getObservationsByHikeId (h.id.getD 0) st))) =
      '\x7b' :: mid ++ ['\x7d'] := by
    rw [hobjE]
    exact hmid
  have hhdr := headerChars_noBrace h
    (getObservationsByHikeId (h.id.getD 0) st).length hn hl hd hymd hdiff3r
  have hext : extractJsonBlock ((String.mk
      (headerChars h (getObservationsByHikeId (h.id.getD 0) st).length ++
        renderJson (exportFormatJson
          (hikeToExportFormat h (getObservationsByHikeId (h.id.getD 0) st))))).data) =
      renderJson (exportFormatJson
        (hikeToExportFormat h (getObservationsByHikeId (h.id.getD 0) st))) := by
    show extractJsonBlock (headerChars h _ ++ renderJson _) = _
    rw [hrender]
    exact extractJsonBlock_header _ mid hhdr
  have hnull : isNullJson (exportFormatJson
      (hikeToExportFormat h (getObservationsByHikeId (h.id.getD 0) st))) = false := by
    rw [hobjE]
    rfl
  have hmiss := requiredFieldMissing_export
    (hikeToExportFormat h (getObservationsByHikeId (h.id.getD 0) st))
    hnme hlocne hdatene hkmne hdiffne
  unfold requiredFieldMissing at hmiss
  unfold exportHikeToJson parseImportJson
  simp only [hext, jsonParse_render]
  rw [hnull, if_neg (by decide), hmiss, if_neg (by decide)]

set_option maxRecDepth 1000000 in
/-- C2 (counterexample): the round trip `decode (encode h)` fails outright for
the valid hike `hikeBrace`, whose name contains an opening brace: the brace in
the readable header makes the greedy extraction start before the JSON payload,
so `decode` reports the invalid-JSON error instead of reproducing the hike's
fields. -/
theorem c2_counterexample :
    HikeValid hikeBrace ∧
      parseImportJson (exportHikeToJson hikeBrace emptyStore) =
        .error msgInvalidJson :=
  ⟨by decide, rfl⟩

/-- C2 (amended): for every valid hike whose name, location and description
contain no opening brace, `decode (encode h)` succeeds and yields exactly the
export record built from the hike and its stored observations — every field of
the hike (name, location, date, parkingAvailable, lengthKm, difficulty,
description, elevationGainM, rating, latitude, longitude) plus the
observations (observation text, timestamp, comments), with only photoUri and
addedToCalendar dropped. -/
theorem c2_amended_round_trip (h : Hike) (st : Store)
    (hv : HikeValid h) (hn : noBraceL h.name.data) (hl : noBraceL h.location.data)
    (hd : noBraceL ((h.description.getD "").data)) :
    (parseImportJson (exportHikeToJson h st)).map jsonToExportFormat =
      Except.ok (hikeToExportFormat h (getObservationsByHikeId (h.id.getD 0) st)) := by
  rw [parseImportJson_export h st hv hn hl hd]
  show Except.ok (jsonToExportFormat (exportFormatJson _)) = _
  rw [jsonToExportFormat_export]

/-- C2 (witness): the amended round trip applied to the concrete valid hike
`hikeA` in the empty store. -/
theorem c2_amended_round_trip_witness :
    HikeValid hikeA ∧ noBraceL hikeA.name.data ∧ noBraceL hikeA.location.data ∧
      noBraceL ((hikeA.description.getD "").data) ∧
      (parseImportJson (exportHikeToJson hikeA emptyStore)).map jsonToExportFormat =
        Except.ok (hikeToExportFormat hikeA
          (getObservationsByHikeId (hikeA.id.getD 0) emptyStore)) :=
  ⟨by decide, by decide, by decide, by decide,
    c2_amended_round_trip hikeA emptyStore (by decide) (by decide) (by decide) (by decide)⟩
